import Mathlib

/-!
# gunapi: the firearm catalog service

A shallow embedding of `main.go`: the seeding pass `InsertFirearms`, the nine
request handlers and the SQL statements they issue.

* Go strings and SQLite TEXT values are `String`s (sequences of Unicode
  characters, the NUL character among them; path parameters are taken to be
  valid UTF-8).
* Go `int` is the 64-bit `int`; SQLite INTEGER is a 64-bit integer.  Both are
  `Int` here, with the range checks written where the code has them
  (`strconv.Atoi`, the numeric coercion of a TEXT parameter).
* `float64` values are kept as the decimal literal the source writes; no claim
  computes with them.
* The database handle is explicit: a handler receives the function that answers
  its query, and returns its HTTP response together with the queries it issued.
  `sqlite` is the storage engine over a given table; `sqliteExec` is its insert.
* What the libraries decide and the repository does not fix (Unicode tables, the
  engine's access path and counter policy) is a parameter, `Env`; the
  properties hold for every environment.
-/

namespace Gunapi

/-! ## Library parameters -/

/-- What the program reaches through its libraries and is not part of the
repository: the Unicode tables behind `strings.Title` for runes above U+007F;
the storage engine's comparison of an INTEGER column with a TEXT parameter that
is not the text of a 64-bit integer (it is converted to REAL when it is a real
literal, and compared as TEXT otherwise); the engine's choice of access path for
the brand query, the one query that an index of the table can answer; and
whether the rowid drawn for an insert that is then ignored is used up (the
engine's documentation leaves it open: such a rowid "might not be reused"). -/
structure Env where
  unicodeIsLetter : Char → Bool
  unicodeIsDigit : Char → Bool
  unicodeIsSpace : Char → Bool
  unicodeToTitle : Char → Char
  numericTextEq : String → Int → Bool
  brandIndexScan : Bool
  ignoredInsertUsesRowid : Bool

/-- An environment in which runes above U+007F have no case and no class, a
TEXT parameter that is not the text of an integer equals no INTEGER value, the
brand query walks the (brand, name) index, and an ignored insert uses up the
rowid drawn for it. -/
def Env.ascii : Env where
  unicodeIsLetter := fun _ => false
  unicodeIsDigit := fun _ => false
  unicodeIsSpace := fun _ => false
  unicodeToTitle := fun c => c
  numericTextEq := fun _ _ => false
  brandIndexScan := true
  ignoredInsertUsesRowid := true

/-! ## Integers and their decimal text -/

/-- Lower bound of Go `int` and of SQLite INTEGER (64 bits). -/
def minInt64 : Int := -9223372036854775808

/-- Upper bound of Go `int` and of SQLite INTEGER (64 bits). -/
def maxInt64 : Int := 9223372036854775807

/-- Value of a decimal digit character, `none` for any other character. -/
def digitVal (c : Char) : Option Nat :=
  if 48 ≤ c.toNat ∧ c.toNat ≤ 57 then some (c.toNat - 48) else none

/-- The loop `n = n*10 + int(ch)` over the characters of a digit string. -/
def parseDigits : List Char → Nat → Option Nat
  | [], acc => some acc
  | c :: cs, acc =>
    match digitVal c with
    | none => none
    | some d => parseDigits cs (acc * 10 + d)

/-- An optional sign followed by at least one decimal digit, as an unbounded
integer. -/
def signedDecimal (cs : List Char) : Option Int :=
  match cs with
  | [] => none
  | c :: ds =>
    if c = '-' then
      if ds = [] then none else (parseDigits ds 0).map fun n => -Int.ofNat n
    else if c = '+' then
      if ds = [] then none else (parseDigits ds 0).map Int.ofNat
    else (parseDigits (c :: ds) 0).map Int.ofNat

/-- Go `strconv.Atoi` on a 64-bit platform: `none` stands for a non-nil error
(syntax error or value out of range). -/
def Atoi (s : String) : Option Int :=
  match signedDecimal s.data with
  | none => none
  | some n => if minInt64 ≤ n ∧ n ≤ maxInt64 then some n else none

/-- Digits of `n`, most significant first, with `fuel` bounding the number of
digits produced. -/
def natDigitsFuel : Nat → Nat → List Char
  | 0, _ => []
  | fuel + 1, n =>
    if n < 10 then [Nat.digitChar n]
    else natDigitsFuel fuel (n / 10) ++ [Nat.digitChar (n % 10)]

/-- Decimal digits of a natural number. -/
def natDigits (n : Nat) : List Char := natDigitsFuel (n + 1) n

/-- Go `strconv.Itoa`, which is also what `fmt`'s `%d` prints: the decimal text
of an integer. -/
def Itoa (i : Int) : String :=
  match i with
  | Int.ofNat n => String.mk (natDigits n)
  | Int.negSucc n => String.mk ('-' :: natDigits (n + 1))

/-! ## `strings.Title` -/

/-- Go `strings.isSeparator`: ASCII alphanumerics and underscore do not separate
words, every other ASCII character does; above ASCII, letters and digits do not,
and otherwise only spaces do. -/
def isSeparator (env : Env) (r : Char) : Bool :=
  if r.toNat ≤ 0x7F then
    if 48 ≤ r.toNat ∧ r.toNat ≤ 57 then false
    else if 97 ≤ r.toNat ∧ r.toNat ≤ 122 then false
    else if 65 ≤ r.toNat ∧ r.toNat ≤ 90 then false
    else if r = '_' then false
    else true
  else if env.unicodeIsLetter r || env.unicodeIsDigit r then false
  else env.unicodeIsSpace r

/-- Go `unicode.ToTitle`: ASCII lower-case letters are moved to upper case,
other ASCII characters are unchanged, the rest goes through the Unicode
tables. -/
def ToTitle (env : Env) (r : Char) : Char :=
  if r.toNat ≤ 0x7F then
    if 97 ≤ r.toNat ∧ r.toNat ≤ 122 then Char.ofNat (r.toNat - 32) else r
  else env.unicodeToTitle r

/-- The mapping closure of `strings.Title`, with `prev` the previous rune. -/
def titleRunes (env : Env) : Char → List Char → List Char
  | _, [] => []
  | prev, r :: rs =>
    (if isSeparator env prev then ToTitle env r else r) :: titleRunes env r rs

/-- Go `strings.Title`: the first letter of every word is mapped to title case,
nothing else changes. -/
def Title (env : Env) (s : String) : String :=
  String.mk (titleRunes env ' ' s.data)

/-! ## The LIKE operator -/

/-- ASCII lower-casing, the only case folding the engine's LIKE applies. -/
def asciiLower (c : Char) : Char :=
  if 65 ≤ c.toNat ∧ c.toNat ≤ 90 then Char.ofNat (c.toNat + 32) else c

/-- SQLite `text LIKE pattern` without ESCAPE: `%` matches any run of
characters, `_` matches any one character, every other character matches itself
up to ASCII case. -/
def likeMatch : List Char → List Char → Bool
  | [], s => s.isEmpty
  | c :: p, s =>
    if c = '%' then s.tails.any fun t => likeMatch p t
    else
      match s with
      | [] => false
      | d :: rest => (c = '_' || asciiLower c = asciiLower d) && likeMatch p rest

/-- The NUL character. -/
def nul : Char := Char.ofNat 0

/-- A text as the engine's LIKE reads it, pattern or column value: up to its
first NUL character. -/
def cText (cs : List Char) : List Char :=
  cs.takeWhile fun c => decide (c ≠ nul)

/-- Number of bytes of the UTF-8 encoding of a text. -/
def byteLength (cs : List Char) : Nat :=
  (cs.map Char.utf8Size).sum

/-- The engine's limit on the length of a LIKE pattern, in bytes
(SQLITE_MAX_LIKE_PATTERN_LENGTH, at its default). -/
def maxLikePatternLength : Nat := 50000

/-- The condition `column LIKE '%' || ? || '%' COLLATE NOCASE`, with `v` the
bound parameter, for a pattern within the length limit.  The COLLATE clause
attaches to the last `'%'` literal and LIKE does not consult collations, so this
is a plain LIKE; it reads the pattern and the column value up to their first
NUL character. -/
def likeContains (column v : String) : Bool :=
  likeMatch (cText ('%' :: (v.data ++ ['%']))) (cText column.data)

/-- Whether the pattern `'%' || v || '%'` is longer than the engine accepts; the
whole pattern counts, also what follows a NUL character. -/
def likeTooLong (v : String) : Bool :=
  decide (maxLikePatternLength < byteLength ('%' :: (v.data ++ ['%'])))

/-- The condition `column = ?` for an INTEGER column and a parameter bound as
TEXT: numeric affinity is applied to the parameter, so the text of a 64-bit
integer is compared as that integer. -/
def intEqText (env : Env) (column : Int) (v : String) : Bool :=
  match signedDecimal v.data with
  | some n =>
    if minInt64 ≤ n ∧ n ≤ maxInt64 then decide (column = n) else env.numericTextEq v column
  | none => env.numericTextEq v column

/-! ## Records -/

/-- A `float64`, kept as the decimal literal that denotes it:
`mantissa * 10 ^ exponent`, the exponent negated when `negExponent` is set. -/
structure Float64 where
  mantissa : Nat
  negExponent : Bool
  exponent : Nat
  deriving DecidableEq, Repr

instance : OfScientific Float64 := ⟨Float64.mk⟩

/-- The anonymous struct of the reference list in `InsertFirearms`. -/
structure Gun where
  brand : String
  name : String
  caliber : String
  type_ : String
  magazineCap : Int
  effectiveRange : Int
  year : Int
  price : Int
  manufacturer : String
  weight : Float64
  barrelLength : Float64
  action : String
  countryOfOrigin : String
  deriving DecidableEq, Repr

/-- Go `Firearm`: one row of the `firearms` table, in column order. -/
structure Firearm where
  ID : Int
  Brand : String
  Name : String
  Caliber : String
  Type_ : String
  MagazineCapacity : Int
  EffectiveRange : Int
  Year : Int
  Price : Int
  Manufacturer : String
  Weight : Float64
  BarrelLength : Float64
  Action : String
  CountryOfOrigin : String
  CreatedAt : String
  UpdatedAt : String
  deriving DecidableEq, Repr

/-! ## The reference list -/

/-- The `firearms` slice literal of `InsertFirearms`, entry for entry. -/
def firearms : List Gun :=
  [
    ⟨"Glock", "19", "9mm Parabellum", "Pistol", 15, 50, 1988, 550, "Glock GmbH", 0.67, 10.2, "Semi-Auto", "Austria"⟩,
    ⟨"Glock", "20", "10mm Auto", "Pistol", 15, 50, 1991, 620, "Glock GmbH", 0.79, 11.7, "Semi-Auto", "Austria"⟩,
    ⟨"Glock", "21", ".45 ACP", "Pistol", 13, 50, 1990, 600, "Glock GmbH", 0.83, 11.7, "Semi-Auto", "Austria"⟩,
    ⟨"H&K", "MP7", "4.6x30mm", "Submachine Gun", 20, 200, 2001, 1700, "Heckler & Koch", 1.9, 18.0, "Select-Fire", "Germany"⟩,
    ⟨"H&K", "MP5", "9mm Parabellum", "Submachine Gun", 30, 200, 1966, 2000, "Heckler & Koch", 2.5, 22.5, "Select-Fire", "Germany"⟩,
    ⟨"H&K", "UMP", ".45 ACP", "Submachine Gun", 25, 100, 1999, 1800, "Heckler & Koch", 2.3, 20.0, "Select-Fire", "Germany"⟩,
    ⟨"H&K", "G36", "5.56x45mm NATO", "Rifle", 30, 600, 1997, 2500, "Heckler & Koch", 3.6, 48.0, "Select-Fire", "Germany"⟩,
    ⟨"H&K", "HK416", "5.56x45mm NATO", "Rifle", 30, 600, 2004, 2700, "Heckler & Koch", 3.4, 36.8, "Select-Fire", "Germany"⟩,
    ⟨"SIG Sauer", "P220", ".45 ACP", "Pistol", 8, 50, 1975, 700, "SIG Sauer", 0.86, 11.2, "Semi-Auto", "Switzerland"⟩,
    ⟨"SIG Sauer", "P226", "9mm Parabellum", "Pistol", 15, 50, 1984, 750, "SIG Sauer", 0.96, 11.2, "Semi-Auto", "Switzerland"⟩,
    ⟨"SIG Sauer", "MPX", "9mm Parabellum", "Submachine Gun", 30, 100, 2013, 1900, "SIG Sauer", 2.7, 20.3, "Select-Fire", "United States"⟩,
    ⟨"Kriss", "Vector", ".45 ACP", "Submachine Gun", 25, 100, 2009, 2200, "Kriss USA", 2.7, 14.0, "Select-Fire", "United States"⟩,
    ⟨"Colt", "1911", ".45 ACP", "Pistol", 7, 50, 1911, 900, "Colt Manufacturing", 1.1, 12.7, "Semi-Auto", "United States"⟩,
    ⟨"Colt", "Anaconda", ".44 Magnum", "Revolver", 6, 100, 1990, 1200, "Colt Manufacturing", 1.5, 15.2, "Double-Action", "United States"⟩,
    ⟨"Colt", "Python", ".357 Magnum", "Revolver", 6, 100, 1955, 1300, "Colt Manufacturing", 1.2, 10.2, "Double-Action", "United States"⟩,
    ⟨"Colt", "AR-15", "5.56x45mm NATO", "Rifle", 30, 600, 1964, 1000, "Colt Manufacturing", 3.2, 50.8, "Semi-Auto", "United States"⟩,
    ⟨"ArmaLite", "AR-19", "9mm Parabellum", "Rifle", 32, 200, 2020, 1500, "ArmaLite", 3.0, 40.6, "Semi-Auto", "United States"⟩,
    ⟨"Kalashnikov", "AK-47", "7.62x39mm", "Rifle", 30, 350, 1949, 800, "Kalashnikov Concern", 4.3, 41.5, "Select-Fire", "Russia"⟩,
    ⟨"Kalashnikov", "AKM", "7.62x39mm", "Rifle", 30, 350, 1959, 850, "Kalashnikov Concern", 3.1, 41.5, "Select-Fire", "Russia"⟩,
    ⟨"Smith & Wesson", "M&P Shield", "9mm Parabellum", "Pistol", 8, 50, 2012, 600, "Smith & Wesson", 0.58, 7.9, "Semi-Auto", "United States"⟩,
    ⟨"Smith & Wesson", "Model 686", ".357 Magnum", "Revolver", 6, 100, 1980, 1000, "Smith & Wesson", 1.3, 10.2, "Double-Action", "United States"⟩,
    ⟨"Smith & Wesson", "M&P15", "5.56x45mm NATO", "Rifle", 30, 600, 2006, 1200, "Smith & Wesson", 3.2, 40.6, "Semi-Auto", "United States"⟩,
    ⟨"Springfield", "Enhanced 1911", ".45 ACP", "Pistol", 7, 50, 1985, 1100, "Springfield Armory", 1.1, 12.7, "Semi-Auto", "United States"⟩,
    ⟨"Springfield", "M1A", "7.62x51mm NATO", "Rifle", 20, 800, 1974, 1800, "Springfield Armory", 4.2, 55.9, "Semi-Auto", "United States"⟩,
    ⟨"Springfield", "XD-M", "9mm Parabellum", "Pistol", 19, 50, 2008, 700, "Springfield Armory", 0.88, 11.7, "Semi-Auto", "United States"⟩,
    ⟨"Beretta", "92FS", "9mm Parabellum", "Pistol", 15, 50, 1976, 800, "Beretta", 0.95, 12.5, "Semi-Auto", "Italy"⟩,
    ⟨"Beretta", "M9A4", "9mm Parabellum", "Pistol", 17, 50, 2021, 900, "Beretta", 0.94, 12.5, "Semi-Auto", "Italy"⟩,
    ⟨"Beretta", "APX", "9mm Parabellum", "Pistol", 17, 50, 2017, 650, "Beretta", 0.80, 10.8, "Semi-Auto", "Italy"⟩,
    ⟨"Benelli", "M4", "12 Gauge", "Shotgun", 7, 50, 1998, 1600, "Benelli Armi", 3.8, 47.0, "Semi-Auto", "Italy"⟩,
    ⟨"Benelli", "Super Black Eagle 3", "12 Gauge", "Shotgun", 4, 50, 2017, 2000, "Benelli Armi", 3.3, 71.1, "Semi-Auto", "Italy"⟩,
    ⟨"Benelli", "Nova", "12 Gauge", "Shotgun", 4, 50, 1999, 900, "Benelli Armi", 3.6, 66.0, "Pump-Action", "Italy"⟩,
    ⟨"KBP", "PP-2000", "9mm Parabellum", "Submachine Gun", 20, 100, 2006, 1400, "KBP Instrument Design Bureau", 1.4, 18.2, "Select-Fire", "Russia"⟩,
    ⟨"Izhmash", "PP-19 Bizon", "9x18mm Makarov", "Submachine Gun", 64, 100, 1996, 1500, "Izhmash", 2.1, 22.5, "Select-Fire", "Russia"⟩,
    ⟨"Nagant", "M1895", "7.62x38mmR", "Revolver", 7, 50, 1895, 500, "Tula Arsenal", 0.8, 11.4, "Double-Action", "Russia"⟩,
    ⟨"Izhmash", "PP-19-01 Vityaz-SN", "9mm Parabellum", "Submachine Gun", 30, 200, 2004, 1600, "Izhmash", 2.9, 23.7, "Select-Fire", "Russia"⟩,
    ⟨"Kalashnikov", "PPK-20", "9mm Parabellum", "Submachine Gun", 30, 200, 2020, 1800, "Kalashnikov Concern", 2.7, 23.7, "Select-Fire", "Russia"⟩,
    ⟨"Kalashnikov", "Saiga-9", "9mm Parabellum", "Carbine", 10, 200, 2010, 1200, "Kalashnikov Concern", 3.2, 34.5, "Semi-Auto", "Russia"⟩,
    ⟨"Yarygin", "MP-443 Grach", "9mm Parabellum", "Pistol", 17, 50, 2003, 600, "Izhevsk Mechanical Plant", 0.95, 11.2, "Semi-Auto", "Russia"⟩,
    ⟨"Izhmash", "Makarov PM", "9x18mm Makarov", "Pistol", 8, 50, 1951, 400, "Izhmash", 0.73, 9.3, "Semi-Auto", "Russia"⟩,
    ⟨"Izhmash", "PSM", "5.45x18mm", "Pistol", 8, 50, 1973, 450, "Izhmash", 0.46, 8.5, "Semi-Auto", "Russia"⟩,
    ⟨"FN", "Five-seveN", "5.7x28mm", "Pistol", 20, 50, 2000, 1100, "FN Herstal", 0.62, 12.2, "Semi-Auto", "Belgium"⟩,
    ⟨"FN", "SCAR-L", "5.56x45mm NATO", "Rifle", 30, 600, 2009, 2500, "FN Herstal", 3.3, 35.1, "Select-Fire", "Belgium"⟩,
    ⟨"FN", "P90", "5.7x28mm", "Submachine Gun", 50, 200, 1990, 2000, "FN Herstal", 2.6, 26.3, "Select-Fire", "Belgium"⟩,
    ⟨"FN", "FAL", "7.62x51mm NATO", "Rifle", 20, 800, 1953, 1500, "FN Herstal", 4.3, 53.3, "Select-Fire", "Belgium"⟩,
    ⟨"Kalashnikov", "Saiga-12", "12 Gauge", "Shotgun", 8, 50, 1997, 1000, "Kalashnikov Concern", 3.6, 43.0, "Semi-Auto", "Russia"⟩,
    ⟨"Kalashnikov", "Saiga-410", ".410 Bore", "Shotgun", 8, 50, 1997, 900, "Kalashnikov Concern", 3.4, 43.0, "Semi-Auto", "Russia"⟩,
    ⟨"Kalashnikov", "Saiga-20", "20 Gauge", "Shotgun", 8, 50, 1997, 950, "Kalashnikov Concern", 3.5, 43.0, "Semi-Auto", "Russia"⟩,
    ⟨"Molot", "Vepr-12", "12 Gauge", "Shotgun", 8, 50, 2003, 1100, "Molot-Oruzhie", 3.9, 43.0, "Semi-Auto", "Russia"⟩,
    ⟨"Kalashnikov", "Saiga-12", "12 Gauge", "Shotgun", 8, 50, 1997, 1000, "Kalashnikov Concern", 3.6, 43.0, "Semi-Auto", "Russia"⟩,
    ⟨"Degtyarev", "RPG-7", "40mm Rocket", "Rocket Launcher", 1, 300, 1961, 2500, "Bazalt", 7.0, 95.0, "Single-Shot", "Russia"⟩,
    ⟨"Raytheon", "FGM-148 Javelin", "127mm Missile", "Missile Launcher", 1, 2500, 1996, 25000, "Raytheon/Lockheed Martin", 22.3, 110.0, "Single-Shot", "United States"⟩,
    ⟨"Lockheed Martin", "Predator SRAW", "140mm Missile", "Missile Launcher", 1, 600, 2002, 15000, "Lockheed Martin", 9.8, 100.0, "Single-Shot", "United States"⟩,
    ⟨"Saab", "AT4", "84mm Rocket", "Rocket Launcher", 1, 300, 1987, 2000, "Saab Bofors Dynamics", 6.7, 100.0, "Single-Shot", "Sweden"⟩,
    ⟨"Colt", "M4 Carbine", "5.56x45mm NATO", "Rifle", 30, 500, 1994, 2000, "Colt Manufacturing", 2.9, 36.8, "Select-Fire", "United States"⟩,
    ⟨"Tula", "PPSh-41", "7.62x25mm Tokarev", "Submachine Gun", 71, 200, 1941, 600, "Tula Arsenal", 3.6, 26.9, "Select-Fire", "Russia"⟩,
    ⟨"Erma", "MP40", "9mm Parabellum", "Submachine Gun", 32, 100, 1940, 700, "Erma Werke", 4.0, 25.1, "Select-Fire", "Germany"⟩,
    ⟨"Mauser", "MG42", "7.92x57mm Mauser", "Machine Gun", 250, 1000, 1942, 3000, "Mauser Werke", 11.6, 53.0, "Full-Auto", "Germany"⟩,
    ⟨"Browning", "M1919", "7.62x51mm NATO", "Machine Gun", 250, 1000, 1919, 2500, "Browning Arms", 14.0, 61.0, "Full-Auto", "United States"⟩,
    ⟨"General Electric", "M134D Minigun", "7.62x51mm NATO", "Rotary Machine Gun", 4000, 1000, 1960, 50000, "General Electric", 38.0, 55.9, "Full-Auto", "United States"⟩,
    ⟨"Ruger", "10/22", ".22 LR", "Rifle", 10, 100, 1964, 300, "Sturm, Ruger & Co.", 2.3, 47.0, "Semi-Auto", "United States"⟩,
    ⟨"Ruger", "Mini-14", "5.56x45mm NATO", "Rifle", 20, 400, 1973, 900, "Sturm, Ruger & Co.", 2.9, 47.0, "Semi-Auto", "United States"⟩,
    ⟨"Remington", "870", "12 Gauge", "Shotgun", 7, 50, 1950, 500, "Remington Arms", 3.6, 71.1, "Pump-Action", "United States"⟩,
    ⟨"Remington", "700", ".308 Winchester", "Rifle", 4, 800, 1962, 800, "Remington Arms", 3.4, 61.0, "Bolt-Action", "United States"⟩,
    ⟨"Winchester", "Model 70", ".30-06 Springfield", "RifleΙ", 5, 800, 1936, 1000, "Winchester Repeating Arms", 3.6, 61.0, "Bolt-Action", "United States"⟩,
    ⟨"CZ", "CZ 75", "9mm Parabellum", "Pistol", 16, 50, 1975, 700, "Česká zbrojovka", 1.0, 12.0, "Semi-Auto", "Czech Republic"⟩,
    ⟨"IWI", "Tavor X95", "5.56x45mm NATO", "Rifle", 30, 500, 2009, 2200, "Israel Weapon Industries", 3.3, 33.0, "Select-Fire", "Israel"⟩,
    ⟨"Steyr", "AUG", "5.56x45mm NATO", "Rifle", 30, 600, 1977, 2100, "Steyr Mannlicher", 3.6, 50.8, "Select-Fire", "Austria"⟩,
    ⟨"Mossberg", "500", "12 Gauge", "Shotgun", 6, 50, 1960, 450, "O.F. Mossberg & Sons", 3.4, 71.1, "Pump-Action", "United States"⟩,
    ⟨"Magnum Research", "Desert Eagle", ".50 AE", "Pistol", 7, 50, 1983, 1500, "Magnum Research", 2.0, 15.2, "Semi-Auto", "United States"⟩,
    ⟨"Beretta", "93R", "9mm Parabellum", "Pistol", 20, 50, 1979, 1200, "Beretta", 1.2, 12.5, "Select-Fire", "Italy"⟩,
    ⟨"H&K", "USP", "9mm Parabellum", "Pistol", 15, 50, 1993, 800, "Heckler & Koch", 0.79, 10.8, "Semi-Auto", "Germany"⟩,
    ⟨"SIG Sauer", "P250", "9mm Parabellum", "Pistol", 17, 50, 2007, 650, "SIG Sauer", 0.82, 10.8, "Semi-Auto", "United States"⟩,
    ⟨"GIAT", "FAMAS", "5.56x45mm NATO", "Rifle", 25, 450, 1978, 2200, "Nexter Systems", 3.6, 48.8, "Select-Fire", "France"⟩,
    ⟨"Accuracy International", "AWP", "7.62x51mm NATO", "Sniper Rifle", 10, 800, 1997, 3000, "Accuracy International", 6.5, 61.0, "Bolt-Action", "United Kingdom"⟩,
    ⟨"SIG Sauer", "SG553", "5.56x45mm NATO", "Rifle", 30, 400, 2009, 2300, "Swiss Arms", 3.2, 34.7, "Select-Fire", "Switzerland"⟩
  ]

/-! ## The table and the seeding pass -/

/-- State of the `firearms` table: its rows in rowid order (the order a scan
without ORDER BY visits them) and the AUTOINCREMENT counter kept in
`sqlite_sequence`. -/
structure Store where
  rows : List Firearm
  seq : Int
  deriving DecidableEq, Repr

/-- A store whose table has just been created by `InitDB`. -/
def Store.empty : Store := ⟨[], 0⟩

/-- The rowid an insert draws for an AUTOINCREMENT key: one more than the
largest rowid in the table (1 for an empty table), and never below one more than
the counter. -/
def newRowid (db : Store) : Int :=
  let v : Int :=
    match (db.rows.map Firearm.ID).max? with
    | none => 1
    | some m => m + 1
  if v < db.seq + 1 then db.seq + 1 else v

/-- The row an insert of `gun` stores: the thirteen bound values, the drawn
rowid, and CURRENT_TIMESTAMP for both timestamp columns. -/
def Gun.toRow (gun : Gun) (id : Int) (now : String) : Firearm where
  ID := id
  Brand := gun.brand
  Name := gun.name
  Caliber := gun.caliber
  Type_ := gun.type_
  MagazineCapacity := gun.magazineCap
  EffectiveRange := gun.effectiveRange
  Year := gun.year
  Price := gun.price
  Manufacturer := gun.manufacturer
  Weight := gun.weight
  BarrelLength := gun.barrelLength
  Action := gun.action
  CountryOfOrigin := gun.countryOfOrigin
  CreatedAt := now
  UpdatedAt := now

/-- Whether a row with the (brand, name) pair of `gun` is in the table: the
conflict that UNIQUE(brand, name) detects. -/
def conflicts (rows : List Firearm) (gun : Gun) : Bool :=
  rows.any fun f => decide (f.Brand = gun.brand ∧ f.Name = gun.name)

/-- The statement `INSERT OR IGNORE INTO firearms (...) VALUES (...)` at time
`now`.  An insert whose pair is in the table is ignored: it leaves the rows as
they are, and the counter advances or not as the engine decides.  Any other
insert adds its row at the end, under the rowid drawn for it. -/
def insertOrIgnore (env : Env) (now : String) (db : Store) (gun : Gun) : Store :=
  let id := newRowid db
  if conflicts db.rows gun then
    { rows := db.rows, seq := if env.ignoredInsertUsesRowid then id else db.seq }
  else { rows := db.rows ++ [gun.toRow id now], seq := id }

/-- The loop of `InsertFirearms` over the entries from position `k` on, with
`exec k` standing for `db.Exec` on entry `k`.  It returns the state of the
database when the function returns, and the error it returns (`none` is nil). -/
def insertEach {σ : Type} (exec : Nat → σ → Gun → Except String σ) :
    List Gun → Nat → σ → σ × Option String
  | [], _, db => (db, none)
  | gun :: rest, k, db =>
    match exec k db gun with
    | .error err =>
      (db, some ("failed to insert firearm " ++ gun.brand ++ " " ++ gun.name ++ ": " ++ err))
    | .ok db2 => insertEach exec rest (k + 1) db2

/-- Go `InsertFirearms`. -/
def InsertFirearms {σ : Type} (exec : Nat → σ → Gun → Except String σ) (db : σ) :
    σ × Option String :=
  insertEach exec firearms 0 db

/-- The storage engine's `db.Exec` of the insert statement, within its resource
limits: it never fails, and entry `k` is stamped with the time `now k`. -/
def sqliteExec (env : Env) (now : Nat → String) :
    Nat → Store → Gun → Except String Store :=
  fun k db gun => .ok (insertOrIgnore env (now k) db gun)

/-- The table after seeding an empty store. -/
def seeded (env : Env) (now : Nat → String) : Store :=
  (InsertFirearms (sqliteExec env now) Store.empty).1

/-! ## Queries -/

/-- The read statements of the handlers, each with its bound parameters. -/
inductive Query where
  /-- Statement `SELECT * FROM firearms WHERE brand = ?` -/
  | brandEq (v : String)
  /-- Statement `SELECT * FROM firearms WHERE name LIKE '%' || ? || '%' COLLATE NOCASE` -/
  | nameLike (v : String)
  /-- Statement `SELECT * FROM firearms WHERE caliber LIKE '%' || ? || '%' COLLATE NOCASE` -/
  | caliberLike (v : String)
  /-- Statement `SELECT * FROM firearms WHERE price BETWEEN ? AND ?` -/
  | priceBetween (lo hi : Int)
  /-- Statement `SELECT * FROM firearms WHERE country_of_origin LIKE '%' || ? || '%' COLLATE NOCASE` -/
  | countryLike (v : String)
  /-- Statement `SELECT * FROM firearms WHERE year = ?` -/
  | yearEq (v : String)
  /-- Statement `SELECT * FROM firearms WHERE type LIKE '%' || ? || '%' COLLATE NOCASE` -/
  | typeLike (v : String)
  /-- Statement `SELECT * FROM firearms WHERE id = ?` -/
  | idEq (v : String)
  /-- Statement `SELECT * FROM firearms` -/
  | all
  deriving DecidableEq, Repr

/-- What a handler gets back from a query: the error of `db.Query`, the error of
a `rows.Scan`, the error of `rows.Err`, or the scanned rows in the order the
engine delivered them. -/
inductive Rows where
  | queryError (err : String)
  | scanError (err : String)
  | rowsError (err : String)
  | ok (rows : List Firearm)
  deriving DecidableEq, Repr

/-- The database handle as the handlers use it. -/
abbrev DB := Query → Rows

/-- The order of the BINARY collation on TEXT: character by character, a proper
beginning of a text before the text. -/
def binaryLE : List Char → List Char → Bool
  | [], _ => true
  | _ :: _, [] => false
  | a :: as, b :: bs =>
    if a.toNat < b.toNat then true
    else if b.toNat < a.toNat then false
    else binaryLE as bs

/-- The order in which the rows of one brand come out of the (brand, name)
index: by name, and by rowid among equal names. -/
def indexOrder (rows : List Firearm) : List Firearm :=
  rows.insertionSort fun a b => binaryLE a.Name.data b.Name.data = true

/-- The rows of the brand query in the order the engine delivers them.  The
statement has no ORDER BY: a scan of the table delivers them by rowid, a walk of
the (brand, name) index by name. -/
def brandOrder (env : Env) (rows : List Firearm) : List Firearm :=
  if env.brandIndexScan then indexOrder rows else rows

/-- A query `SELECT * FROM firearms WHERE column LIKE '%' || ? || '%'` over the
table `t`.  The engine evaluates LIKE on each row it visits and refuses a
pattern over the length limit with an error: with such a pattern the first row
visited ends the iteration with that error, which the handler gets from
`rows.Err`; a table without rows is answered with no row.  Otherwise the
matching rows are delivered in table order. -/
def likeQuery (t : List Firearm) (column : Firearm → String) (v : String) : Rows :=
  if likeTooLong v && !t.isEmpty then .rowsError "LIKE or GLOB pattern too complex"
  else .ok (t.filter fun f => likeContains (column f) v)

/-- The storage engine over the table `t`, with storage that does not fail.  The
brand query delivers the matching rows in `brandOrder`; every other query has to
scan the table and delivers them in table order. -/
def sqlite (env : Env) (t : List Firearm) : DB
  | .brandEq v => .ok (brandOrder env (t.filter fun f => decide (f.Brand = v)))
  | .nameLike v => likeQuery t Firearm.Name v
  | .caliberLike v => likeQuery t Firearm.Caliber v
  | .priceBetween lo hi => .ok (t.filter fun f => decide (lo ≤ f.Price ∧ f.Price ≤ hi))
  | .countryLike v => likeQuery t Firearm.CountryOfOrigin v
  | .yearEq v => .ok (t.filter fun f => intEqText env f.Year v)
  | .typeLike v => likeQuery t Firearm.Type_ v
  | .idEq v => .ok (t.filter fun f => intEqText env f.ID v)
  | .all => .ok t

/-! ## Responses -/

/-- Go `http.StatusOK`. -/
abbrev StatusOK : Nat := 200
/-- Go `http.StatusBadRequest`. -/
abbrev StatusBadRequest : Nat := 400
/-- Go `http.StatusNotFound`. -/
abbrev StatusNotFound : Nat := 404
/-- Go `http.StatusInternalServerError`. -/
abbrev StatusInternalServerError : Nat := 500

/-- The value handed to `c.JSON`: a `gin.H` with one key, a slice of records, or
one record. -/
inductive Body where
  | H (key value : String)
  | firearms (list : List Firearm)
  | firearm (f : Firearm)
  deriving DecidableEq, Repr

/-- The call `c.JSON(status, body)` that ends a handler. -/
structure Response where
  status : Nat
  body : Body
  deriving DecidableEq, Repr

/-- What a handler did: its response, and the queries it issued, in order. -/
structure Outcome where
  response : Response
  queries : List Query
  deriving DecidableEq, Repr

/-! ## Handlers -/

/-- The part every list handler shares after `db.Query`: an error of the query,
of a scan or of the iteration ends the request with a 500; no row gives a 404
with the handler's message; otherwise the rows are returned with a 200. -/
def respondRows (r : Rows) (notFound : String) : Response :=
  match r with
  | .queryError err =>
    ⟨StatusInternalServerError, .H "error" ("failed to query database: " ++ err)⟩
  | .scanError err =>
    ⟨StatusInternalServerError, .H "error" ("failed to scan row: " ++ err)⟩
  | .rowsError err =>
    ⟨StatusInternalServerError, .H "error" ("error iterating rows: " ++ err)⟩
  | .ok list =>
    if list.length = 0 then ⟨StatusNotFound, .H "message" notFound⟩
    else ⟨StatusOK, .firearms list⟩

/-- Go `GetFirearmsByBrand`, on the path parameter `brand`. -/
def GetFirearmsByBrand (env : Env) (db : DB) (brand : String) : Outcome :=
  if brand = "" then
    ⟨⟨StatusBadRequest, .H "error" "brand parameter is required"⟩, []⟩
  else
    let q := Query.brandEq (Title env brand)
    ⟨respondRows (db q) ("no firearms found for brand: " ++ brand), [q]⟩

/-- Go `GetFirearmsByName`, on the path parameter `name`. -/
def GetFirearmsByName (env : Env) (db : DB) (name : String) : Outcome :=
  if name = "" then
    ⟨⟨StatusBadRequest, .H "error" "name parameter is required"⟩, []⟩
  else
    let q := Query.nameLike (Title env name)
    ⟨respondRows (db q) ("no firearms found with name: " ++ name), [q]⟩

/-- Go `GetFirearmsByCaliber`, on the path parameter `caliber`. -/
def GetFirearmsByCaliber (db : DB) (caliber : String) : Outcome :=
  if caliber = "" then
    ⟨⟨StatusBadRequest, .H "error" "caliber parameter is required"⟩, []⟩
  else
    let q := Query.caliberLike caliber
    ⟨respondRows (db q) ("no firearms found for caliber: " ++ caliber), [q]⟩

/-- Go `GetFirearmsByPrice`, on the path parameters `min` and `max`. -/
def GetFirearmsByPrice (db : DB) (minPriceStr maxPriceStr : String) : Outcome :=
  if minPriceStr = "" ∨ maxPriceStr = "" then
    ⟨⟨StatusBadRequest, .H "error" "min and max price parameters are required"⟩, []⟩
  else
    match Atoi minPriceStr with
    | none => ⟨⟨StatusBadRequest, .H "error" "min price must be a valid integer"⟩, []⟩
    | some minPrice =>
      match Atoi maxPriceStr with
      | none => ⟨⟨StatusBadRequest, .H "error" "max price must be a valid integer"⟩, []⟩
      | some maxPrice =>
        if minPrice > maxPrice then
          ⟨⟨StatusBadRequest, .H "error" "min price cannot be greater than max price"⟩, []⟩
        else
          let q := Query.priceBetween minPrice maxPrice
          ⟨respondRows (db q)
            ("no firearms found for price range: " ++ Itoa minPrice ++ " to " ++ Itoa maxPrice),
            [q]⟩

/-- Go `GetFirearmsByCountry`, on the path parameter `country`. -/
def GetFirearmsByCountry (env : Env) (db : DB) (country : String) : Outcome :=
  if country = "" then
    ⟨⟨StatusBadRequest, .H "error" "country parameter is required"⟩, []⟩
  else
    let q := Query.countryLike (Title env country)
    ⟨respondRows (db q) ("no firearms found for country: " ++ country), [q]⟩

/-- Go `GetFirearmsByYear`, on the path parameter `year`. -/
def GetFirearmsByYear (db : DB) (year : String) : Outcome :=
  if year = "" then
    ⟨⟨StatusBadRequest, .H "error" "year parameter is required"⟩, []⟩
  else
    let q := Query.yearEq year
    ⟨respondRows (db q) ("no firearms found for year: " ++ year), [q]⟩

/-- Go `GetFirearmsByType`, on the path parameter `type`. -/
def GetFirearmsByType (env : Env) (db : DB) (weptype : String) : Outcome :=
  if weptype = "" then
    ⟨⟨StatusBadRequest, .H "error" "type parameter is required"⟩, []⟩
  else
    let q := Query.typeLike (Title env weptype)
    ⟨respondRows (db q) ("no firearms found for type: " ++ weptype), [q]⟩

/-- Go `GetFirearmByID`, on the path parameter `id`.  `QueryRow(...).Scan`
yields the first row of the result, `sql.ErrNoRows` when there is none, and any
other error of the query otherwise. -/
def GetFirearmByID (db : DB) (id : String) : Outcome :=
  if id = "" then
    ⟨⟨StatusBadRequest, .H "error" "id parameter is required"⟩, []⟩
  else
    let q := Query.idEq id
    match db q with
    | .ok [] => ⟨⟨StatusNotFound, .H "message" ("no firearm found with id: " ++ id)⟩, [q]⟩
    | .ok (f :: _) => ⟨⟨StatusOK, .firearm f⟩, [q]⟩
    | .queryError err =>
      ⟨⟨StatusInternalServerError, .H "error" ("failed to query database: " ++ err)⟩, [q]⟩
    | .scanError err =>
      ⟨⟨StatusInternalServerError, .H "error" ("failed to query database: " ++ err)⟩, [q]⟩
    | .rowsError err =>
      ⟨⟨StatusInternalServerError, .H "error" ("failed to query database: " ++ err)⟩, [q]⟩

/-- Go `GetAllFirearms`: no parameter and no empty-result case. -/
def GetAllFirearms (db : DB) : Outcome :=
  let q := Query.all
  match db q with
  | .queryError err =>
    ⟨⟨StatusInternalServerError, .H "error" ("failed to query database: " ++ err)⟩, [q]⟩
  | .scanError err =>
    ⟨⟨StatusInternalServerError, .H "error" ("failed to scan row: " ++ err)⟩, [q]⟩
  | .rowsError err =>
    ⟨⟨StatusInternalServerError, .H "error" ("error iterating rows: " ++ err)⟩, [q]⟩
  | .ok list => ⟨⟨StatusOK, .firearms list⟩, [q]⟩

/-- A request to one of the eight filter routes registered in `main`, with its
path parameters. -/
inductive FilterRequest where
  | brand (brand : String)
  | name (name : String)
  | caliber (caliber : String)
  | year (year : String)
  | type (weptype : String)
  | country (country : String)
  | price (min max : String)
  | id (id : String)
  deriving DecidableEq, Repr

/-- The filter routes of `main`: each request goes to its handler. -/
def route (env : Env) (db : DB) : FilterRequest → Outcome
  | .brand v => GetFirearmsByBrand env db v
  | .name v => GetFirearmsByName env db v
  | .caliber v => GetFirearmsByCaliber db v
  | .year v => GetFirearmsByYear db v
  | .type v => GetFirearmsByType env db v
  | .country v => GetFirearmsByCountry env db v
  | .price lo hi => GetFirearmsByPrice db lo hi
  | .id v => GetFirearmByID db v

/-- The records a response carries: the list of a list response, the one record
of a single-record response, nothing for a `gin.H` body. -/
def Response.records (r : Response) : List Firearm :=
  match r.body with
  | .H _ _ => []
  | .firearms list => list
  | .firearm f => [f]

/-! ## Definitions used to state and prove the properties -/

/-- A small table for concrete checks: the rows that the entries "Glock" 19, 20,
21 and "SIG Sauer" P220 of the reference list occupy after seeding an empty
store (identifiers 1, 2, 3 and 9). -/
def sampleTable : List Firearm :=
  [
    ⟨1, "Glock", "19", "9mm Parabellum", "Pistol", 15, 50, 1988, 550, "Glock GmbH", 0.67, 10.2, "Semi-Auto", "Austria", "2025-01-01 00:00:00", "2025-01-01 00:00:00"⟩,
    ⟨2, "Glock", "20", "10mm Auto", "Pistol", 15, 50, 1991, 620, "Glock GmbH", 0.79, 11.7, "Semi-Auto", "Austria", "2025-01-01 00:00:00", "2025-01-01 00:00:00"⟩,
    ⟨3, "Glock", "21", ".45 ACP", "Pistol", 13, 50, 1990, 600, "Glock GmbH", 0.83, 11.7, "Semi-Auto", "Austria", "2025-01-01 00:00:00", "2025-01-01 00:00:00"⟩,
    ⟨9, "SIG Sauer", "P220", ".45 ACP", "Pistol", 8, 50, 1975, 700, "SIG Sauer", 0.86, 11.2, "Semi-Auto", "Switzerland", "2025-01-01 00:00:00", "2025-01-01 00:00:00"⟩
  ]

/-- The thirteen inserted values of a row, without its rowid and timestamps. -/
def Firearm.toGun (f : Firearm) : Gun where
  brand := f.Brand
  name := f.Name
  caliber := f.Caliber
  type_ := f.Type_
  magazineCap := f.MagazineCapacity
  effectiveRange := f.EffectiveRange
  year := f.Year
  price := f.Price
  manufacturer := f.Manufacturer
  weight := f.Weight
  barrelLength := f.BarrelLength
  action := f.Action
  countryOfOrigin := f.CountryOfOrigin

/-- The values a table holds after the inserts of `guns` have been applied to a
table holding `acc`: an entry whose (brand, name) pair is present is skipped,
any other is added at the end. -/
def mergeGuns : List Gun → List Gun → List Gun
  | acc, [] => acc
  | acc, gun :: rest =>
    if acc.any (fun h => decide (h.brand = gun.brand ∧ h.name = gun.name)) then
      mergeGuns acc rest
    else mergeGuns (acc ++ [gun]) rest

/-- Whether `v` occurs in `text` as a contiguous run of characters, comparing
characters up to ASCII case. -/
def containsNoCase (text v : String) : Bool :=
  decide (v.data.map asciiLower <:+: text.data.map asciiLower)

/-- The (brand, name) pair of a list entry. -/
def Gun.pair (gun : Gun) : String × String := (gun.brand, gun.name)

/-- The (brand, name) pair of a row, the key of UNIQUE(brand, name). -/
def Firearm.pair (f : Firearm) : String × String := (f.Brand, f.Name)

/-- An insert that fails with the storage error `err` on entry `k` of the list
and is the engine's insert on every other entry. -/
def failingExec (env : Env) (now : Nat → String) (k : Nat) (err : String) :
    Nat → Store → Gun → Except String Store :=
  fun i db gun => if i = k then .error err else sqliteExec env now i db gun

/-- Whether a request fails validation: an empty parameter, a price bound that
`strconv.Atoi` rejects, or a minimum price above the maximum price. -/
def FilterRequest.rejected : FilterRequest → Prop
  | .brand v => v = ""
  | .name v => v = ""
  | .caliber v => v = ""
  | .year v => v = ""
  | .type v => v = ""
  | .country v => v = ""
  | .price lo hi =>
    lo = "" ∨ hi = "" ∨ Atoi lo = none ∨ Atoi hi = none ∨
      ∃ a b, Atoi lo = some a ∧ Atoi hi = some b ∧ a > b
  | .id v => v = ""

/-- The filter value of a request as the caller supplied it; for the price route,
the two parsed bounds joined by " to ". -/
def FilterRequest.supplied : FilterRequest → String
  | .brand v => v
  | .name v => v
  | .caliber v => v
  | .year v => v
  | .type v => v
  | .country v => v
  | .price lo hi =>
    match Atoi lo, Atoi hi with
    | some a, some b => Itoa a ++ " to " ++ Itoa b
    | _, _ => ""
  | .id v => v

/-- The handler `GetFirearmsByName` with the parameter bound as the caller
supplied it, without `strings.Title`: what C14 compares the handler with. -/
def GetFirearmsByNameUntitled (db : DB) (name : String) : Outcome :=
  if name = "" then
    ⟨⟨StatusBadRequest, .H "error" "name parameter is required"⟩, []⟩
  else
    let q := Query.nameLike name
    ⟨respondRows (db q) ("no firearms found with name: " ++ name), [q]⟩

/-- The handler `GetFirearmsByType` with the parameter bound as the caller
supplied it, without `strings.Title`. -/
def GetFirearmsByTypeUntitled (db : DB) (weptype : String) : Outcome :=
  if weptype = "" then
    ⟨⟨StatusBadRequest, .H "error" "type parameter is required"⟩, []⟩
  else
    let q := Query.typeLike weptype
    ⟨respondRows (db q) ("no firearms found for type: " ++ weptype), [q]⟩

/-- The handler `GetFirearmsByCountry` with the parameter bound as the caller
supplied it, without `strings.Title`. -/
def GetFirearmsByCountryUntitled (db : DB) (country : String) : Outcome :=
  if country = "" then
    ⟨⟨StatusBadRequest, .H "error" "country parameter is required"⟩, []⟩
  else
    let q := Query.countryLike country
    ⟨respondRows (db q) ("no firearms found for country: " ++ country), [q]⟩

/-! ## Decimal text: printing and parsing agree -/

theorem digitVal_digitChar (d : Nat) (h : d < 10) : digitVal (Nat.digitChar d) = some d := by
  interval_cases d <;> rfl

theorem parseDigits_snoc (l : List Char) (c : Char) (acc : Nat) :
    parseDigits (l ++ [c]) acc =
      (parseDigits l acc).bind fun a => (digitVal c).map fun d => a * 10 + d := by
  induction l generalizing acc with
  | nil => simp only [List.nil_append, parseDigits]; cases digitVal c <;> rfl
  | cons x xs ih =>
    simp only [List.cons_append, parseDigits]
    cases digitVal x with
    | none => rfl
    | some d => exact ih _

theorem parseDigits_natDigitsFuel (fuel n : Nat) (h : n < fuel) :
    parseDigits (natDigitsFuel fuel n) 0 = some n := by
  induction fuel generalizing n with
  | zero => omega
  | succ fuel ih =>
    unfold natDigitsFuel
    split
    · rename_i hlt
      simp [parseDigits, digitVal_digitChar n hlt]
    · rename_i hge
      have hdiv : n / 10 < fuel := by omega
      rw [parseDigits_snoc, ih _ hdiv, digitVal_digitChar _ (Nat.mod_lt _ (by decide))]
      simp only [Option.some_bind, Option.map_some']
      congr 1
      omega

theorem digitVal_of_mem_natDigitsFuel (fuel n : Nat) (c : Char)
    (hc : c ∈ natDigitsFuel fuel n) : ∃ d, digitVal c = some d := by
  induction fuel generalizing n with
  | zero => simp [natDigitsFuel] at hc
  | succ fuel ih =>
    unfold natDigitsFuel at hc
    split at hc
    · rename_i hlt
      simp only [List.mem_singleton] at hc
      exact ⟨n, hc ▸ digitVal_digitChar n hlt⟩
    · simp only [List.mem_append, List.mem_singleton] at hc
      rcases hc with hc | hc
      · exact ih _ hc
      · exact ⟨n % 10, hc ▸ digitVal_digitChar _ (Nat.mod_lt _ (by decide))⟩

theorem natDigits_ne_nil (n : Nat) : natDigits n ≠ [] := by
  unfold natDigits natDigitsFuel
  split <;> simp

theorem signedDecimal_natDigits (n : Nat) : signedDecimal (natDigits n) = some (n : Int) := by
  have hp : parseDigits (natDigits n) 0 = some n :=
    parseDigits_natDigitsFuel _ _ (Nat.lt_succ_self n)
  have hd : ∀ c ∈ natDigits n, ∃ d, digitVal c = some d :=
    fun c hc => digitVal_of_mem_natDigitsFuel _ _ c hc
  cases hds : natDigits n with
  | nil => exact absurd hds (natDigits_ne_nil n)
  | cons c ds =>
    rw [hds] at hp hd
    obtain ⟨d, hcd⟩ := hd c (List.mem_cons_self _ _)
    have h1 : c ≠ '-' := by rintro rfl; simp [digitVal] at hcd
    have h2 : c ≠ '+' := by rintro rfl; simp [digitVal] at hcd
    simp only [signedDecimal, h1, h2, if_false, hp, Option.map_some']
    rfl

theorem signedDecimal_Itoa (i : Int) : signedDecimal (Itoa i).data = some i := by
  cases i with
  | ofNat n => exact signedDecimal_natDigits n
  | negSucc n =>
    have hp : parseDigits (natDigits (n + 1)) 0 = some (n + 1) :=
      parseDigits_natDigitsFuel _ _ (Nat.lt_succ_self _)
    simp only [Itoa, signedDecimal, if_true, natDigits_ne_nil, if_false, hp, Option.map_some']
    rfl

theorem Atoi_Itoa (i : Int) (h : minInt64 ≤ i ∧ i ≤ maxInt64) : Atoi (Itoa i) = some i := by
  simp only [Atoi, signedDecimal_Itoa, h, and_self, if_true]

theorem Itoa_ne_empty (i : Int) : Itoa i ≠ "" := by
  intro h
  have := signedDecimal_Itoa i
  rw [h] at this
  simp [signedDecimal] at this

/-! ## Validation of the price range (C1) -/

/-- C1: whenever `min` or `max` is not accepted by `strconv.Atoi`, or both are
and the parsed `min` exceeds the parsed `max`, `GetFirearmsByPrice` answers 400
and issues no query; the whole outcome is the same for every database handle,
hence for every table contents. -/
theorem price_bad_request (db : DB) (min max : String)
    (h : Atoi min = none ∨ Atoi max = none ∨
      ∃ a b, Atoi min = some a ∧ Atoi max = some b ∧ a > b) :
    (GetFirearmsByPrice db min max).response.status = StatusBadRequest ∧
    (GetFirearmsByPrice db min max).queries = [] ∧
    ∀ db2 : DB, GetFirearmsByPrice db2 min max = GetFirearmsByPrice db min max := by
  unfold GetFirearmsByPrice
  by_cases he : min = "" ∨ max = ""
  · simp only [he, if_true, true_and]
    intro _; trivial
  · simp only [he, if_false]
    cases hmin : Atoi min with
    | none => simp
    | some a =>
      cases hmax : Atoi max with
      | none => simp
      | some b =>
        rcases h with h | h | ⟨a2, b2, ha, hb, hgt⟩
        · rw [hmin] at h; cases h
        · rw [hmax] at h; cases h
        · rw [hmin] at ha; rw [hmax] at hb
          cases ha; cases hb
          simp [hgt]

/-- C1 at `/price/100/50` on the sample table. -/
theorem price_bad_request_witness :
    (∃ a b, Atoi "100" = some a ∧ Atoi "50" = some b ∧ a > b) ∧
    (GetFirearmsByPrice (sqlite Env.ascii sampleTable) "100" "50").response.status
      = StatusBadRequest ∧
    (GetFirearmsByPrice (sqlite Env.ascii sampleTable) "100" "50").queries = [] :=
  have h : ∃ a b, Atoi "100" = some a ∧ Atoi "50" = some b ∧ a > b :=
    ⟨100, 50, by decide, by decide, by decide⟩
  have r := price_bad_request (sqlite Env.ascii sampleTable) "100" "50" (Or.inr (Or.inr h))
  ⟨h, r.1, r.2.1⟩

/-! ## Empty results (C2) -/

theorem respondRows_ok_nil (msg : String) :
    (respondRows (.ok []) msg).status = StatusNotFound := rfl

theorem respondRows_records_ne_nil (r : Rows) (msg : String)
    (h : (respondRows r msg).status = StatusOK) : (respondRows r msg).records ≠ [] := by
  cases r with
  | queryError e => simp [respondRows] at h
  | scanError e => simp [respondRows] at h
  | rowsError e => simp [respondRows] at h
  | ok l =>
    cases l with
    | nil => simp [respondRows] at h
    | cons f fs => simp [respondRows, Response.records]

/-- C2: for every database handle (in particular the engine over any table
contents) and every request to one of the eight filter routes, if the query the
handler issued matched no record the response is 404, and a 200 response always
carries at least one record. -/
theorem empty_result_not_found (env : Env) (db : DB) (req : FilterRequest) :
    (∀ q, (route env db req).queries = [q] → db q = .ok [] →
      (route env db req).response.status = StatusNotFound) ∧
    ((route env db req).response.status = StatusOK →
      (route env db req).response.records ≠ []) := by
  cases req with
  | brand v =>
    simp only [route, GetFirearmsByBrand]
    split
    · simp
    · refine ⟨?_, respondRows_records_ne_nil _ _⟩
      intro q hq hz
      simp only [List.cons.injEq, and_true] at hq
      rw [hq, hz]; rfl
  | name v =>
    simp only [route, GetFirearmsByName]
    split
    · simp
    · refine ⟨?_, respondRows_records_ne_nil _ _⟩
      intro q hq hz
      simp only [List.cons.injEq, and_true] at hq
      rw [hq, hz]; rfl
  | caliber v =>
    simp only [route, GetFirearmsByCaliber]
    split
    · simp
    · refine ⟨?_, respondRows_records_ne_nil _ _⟩
      intro q hq hz
      simp only [List.cons.injEq, and_true] at hq
      rw [hq, hz]; rfl
  | year v =>
    simp only [route, GetFirearmsByYear]
    split
    · simp
    · refine ⟨?_, respondRows_records_ne_nil _ _⟩
      intro q hq hz
      simp only [List.cons.injEq, and_true] at hq
      rw [hq, hz]; rfl
  | type v =>
    simp only [route, GetFirearmsByType]
    split
    · simp
    · refine ⟨?_, respondRows_records_ne_nil _ _⟩
      intro q hq hz
      simp only [List.cons.injEq, and_true] at hq
      rw [hq, hz]; rfl
  | country v =>
    simp only [route, GetFirearmsByCountry]
    split
    · simp
    · refine ⟨?_, respondRows_records_ne_nil _ _⟩
      intro q hq hz
      simp only [List.cons.injEq, and_true] at hq
      rw [hq, hz]; rfl
  | price lo hi =>
    simp only [route, GetFirearmsByPrice]
    split
    · simp
    · split
      · simp
      · split
        · simp
        · split
          · simp
          · refine ⟨?_, respondRows_records_ne_nil _ _⟩
            intro q hq hz
            simp only [List.cons.injEq, and_true] at hq
            rw [hq, hz]; rfl
  | id v =>
    simp only [route, GetFirearmByID]
    split
    · simp
    · split <;> rename_i heq <;> simp [heq, Response.records]

/-! ## Comparison with the text of an integer -/

theorem intEqText_Itoa (env : Env) (column i : Int) (h : minInt64 ≤ i ∧ i ≤ maxInt64) :
    intEqText env column (Itoa i) = decide (column = i) := by
  simp only [intEqText, signedDecimal_Itoa, h, and_self, if_true]

theorem filter_ID_eq_singleton (t : List Firearm) (hu : (t.map Firearm.ID).Nodup)
    (f : Firearm) (hf : f ∈ t) :
    t.filter (fun g => decide (g.ID = f.ID)) = [f] := by
  induction t with
  | nil => cases hf
  | cons x xs ih =>
    simp only [List.map_cons, List.nodup_cons, List.mem_map, not_exists, not_and] at hu
    rcases List.mem_cons.1 hf with rfl | hmem
    · have hnone : xs.filter (fun g => decide (g.ID = f.ID)) = [] := by
        apply List.filter_eq_nil_iff.2
        intro g hg
        simpa using hu.1 g hg
      simp [List.filter_cons, hnone]
    · have hx : x.ID ≠ f.ID := fun h => hu.1 f hmem h.symm
      simp [List.filter_cons, hx, ih hu.2 hmem]

/-! ## The seeded table -/

theorem Gun.toGun_toRow (gun : Gun) (id : Int) (now : String) :
    (gun.toRow id now).toGun = gun := rfl

theorem conflicts_eq_any_toGun (rows : List Firearm) (gun : Gun) :
    conflicts rows gun =
      (rows.map Firearm.toGun).any fun h => decide (h.brand = gun.brand ∧ h.name = gun.name) := by
  induction rows with
  | nil => rfl
  | cons f fs ih =>
    simp only [conflicts, List.any_cons, List.map_cons] at ih ⊢
    rw [ih]
    rfl

theorem insertOrIgnore_rows (env : Env) (now : String) (db : Store) (gun : Gun) :
    (insertOrIgnore env now db gun).rows =
      if conflicts db.rows gun then db.rows else db.rows ++ [gun.toRow (newRowid db) now] := by
  unfold insertOrIgnore
  split <;> rfl

theorem insertEach_sqliteExec (env : Env) (now : Nat → String) (guns : List Gun) (k : Nat) (db : Store) :
    (insertEach (sqliteExec env now) guns k db).2 = none ∧
    (insertEach (sqliteExec env now) guns k db).1.rows.map Firearm.toGun =
      mergeGuns (db.rows.map Firearm.toGun) guns := by
  induction guns generalizing k db with
  | nil => exact ⟨rfl, rfl⟩
  | cons gun rest ih =>
    have hstep : insertEach (sqliteExec env now) (gun :: rest) k db =
        insertEach (sqliteExec env now) rest (k + 1) (insertOrIgnore env (now k) db gun) := rfl
    rw [hstep]
    refine ⟨(ih _ _).1, ?_⟩
    rw [(ih _ _).2, insertOrIgnore_rows, mergeGuns, ← conflicts_eq_any_toGun]
    split
    · rfl
    · simp only [List.map_append, List.map_cons, List.map_nil, Gun.toGun_toRow]

/-- Seeding an empty store returns no error, and the stored values are the
entries of the reference list without the later repetitions of a pair. -/
theorem seeded_toGun (env : Env) (now : Nat → String) :
    (InsertFirearms (sqliteExec env now) Store.empty).2 = none ∧
    (seeded env now).rows.map Firearm.toGun = mergeGuns [] firearms :=
  insertEach_sqliteExec env now firearms 0 Store.empty

theorem Atoi_ne_empty (s : String) (n : Int) (h : Atoi s = some n) : s ≠ "" := by
  rintro rfl
  simp [Atoi, signedDecimal] at h

theorem GetFirearmsByPrice_parsed (db : DB) (smin smax : String) (lo hi : Int)
    (hlo : Atoi smin = some lo) (hhi : Atoi smax = some hi) (hle : lo ≤ hi) :
    GetFirearmsByPrice db smin smax =
      ⟨respondRows (db (.priceBetween lo hi))
        ("no firearms found for price range: " ++ Itoa lo ++ " to " ++ Itoa hi),
       [.priceBetween lo hi]⟩ := by
  have h1 := Atoi_ne_empty _ _ hlo
  have h2 := Atoi_ne_empty _ _ hhi
  have h3 : ¬ lo > hi := not_lt.2 hle
  simp only [GetFirearmsByPrice, h1, h2, or_self, if_false, hlo, hhi, h3]

theorem respondRows_ok_of_ne_nil (list : List Firearm) (msg : String) (h : list ≠ []) :
    respondRows (.ok list) msg = ⟨StatusOK, .firearms list⟩ := by
  cases list with
  | nil => exact absurd rfl h
  | cons f fs => rfl

/-- C7: for 64-bit integers `lo ≤ hi` given as decimal text, when some record of
the table has `lo ≤ price ≤ hi`, `GetFirearmsByPrice` answers 200 with the
records whose price lies in the closed interval, in table order. -/
theorem price_between (env : Env) (t : List Firearm) (lo hi : Int)
    (hlo : minInt64 ≤ lo ∧ lo ≤ maxInt64) (hhi : minInt64 ≤ hi ∧ hi ≤ maxInt64)
    (hle : lo ≤ hi) (hex : ∃ f ∈ t, lo ≤ f.Price ∧ f.Price ≤ hi) :
    (GetFirearmsByPrice (sqlite env t) (Itoa lo) (Itoa hi)).response =
      ⟨StatusOK, .firearms (t.filter fun f => decide (lo ≤ f.Price ∧ f.Price ≤ hi))⟩ := by
  rw [GetFirearmsByPrice_parsed _ _ _ lo hi (Atoi_Itoa lo hlo) (Atoi_Itoa hi hhi) hle]
  apply respondRows_ok_of_ne_nil
  obtain ⟨f, hf, hp⟩ := hex
  intro hnil
  have := List.filter_eq_nil_iff.1 hnil f hf
  simp [hp] at this

/-- C7 on the sample table with bounds 550 and 620: both end points are prices
of stored records. -/
theorem price_between_witness :
    ((minInt64 ≤ 550 ∧ 550 ≤ maxInt64) ∧ (minInt64 ≤ 620 ∧ 620 ≤ maxInt64) ∧
      (550 : Int) ≤ 620 ∧ ∃ f ∈ sampleTable, 550 ≤ f.Price ∧ f.Price ≤ 620) ∧
    (GetFirearmsByPrice (sqlite Env.ascii sampleTable) (Itoa 550) (Itoa 620)).response =
      ⟨StatusOK, .firearms (sampleTable.filter fun f => decide (550 ≤ f.Price ∧ f.Price ≤ 620))⟩ :=
  ⟨⟨by decide, by decide, by decide, by decide⟩,
   price_between Env.ascii sampleTable 550 620 (by decide) (by decide) (by decide) (by decide)⟩

/-! ## Responses of the list handlers -/

theorem respondRows_ok_records (list : List Firearm) (msg : String) :
    (respondRows (.ok list) msg).records = list := by
  cases list <;> rfl

theorem respondRows_ok_status (list : List Firearm) (msg : String) :
    (respondRows (.ok list) msg).status = if list = [] then StatusNotFound else StatusOK := by
  cases list <;> rfl

/-! ## Year (C10) -/

theorem isSeparator_ascii (env : Env) (r : Char) (h : r.toNat ≤ 0x7F) :
    isSeparator env r = isSeparator Env.ascii r := by
  simp only [isSeparator, h, if_true]

theorem ToTitle_ascii (env : Env) (r : Char) (h : r.toNat ≤ 0x7F) :
    ToTitle env r = ToTitle Env.ascii r := by
  simp only [ToTitle, h, if_true]

theorem titleRunes_ascii (env : Env) (prev : Char) (rs : List Char)
    (hprev : prev.toNat ≤ 0x7F) (h : ∀ r ∈ rs, r.toNat ≤ 0x7F) :
    titleRunes env prev rs = titleRunes Env.ascii prev rs := by
  induction rs generalizing prev with
  | nil => rfl
  | cons r rs ih =>
    have hr : r.toNat ≤ 0x7F := h r (List.mem_cons_self _ _)
    simp only [titleRunes, isSeparator_ascii env prev hprev, ToTitle_ascii env r hr]
    rw [ih r hr fun x hx => h x (List.mem_cons_of_mem _ hx)]

/-- On ASCII text `strings.Title` does not consult the Unicode tables. -/
theorem Title_ascii (env : Env) (s : String) (h : ∀ r ∈ s.data, r.toNat ≤ 0x7F) :
    Title env s = Title Env.ascii s := by
  simp only [Title, titleRunes_ascii env ' ' s.data (by decide) h]

/-! ## Brand (C6, C9, C4) -/

theorem brandOrder_perm (env : Env) (rows : List Firearm) :
    (brandOrder env rows).Perm rows := by
  unfold brandOrder
  split
  · exact List.perm_insertionSort _ rows
  · exact List.Perm.refl rows

theorem brandOrder_eq_nil_iff (env : Env) (rows : List Firearm) :
    brandOrder env rows = [] ↔ rows = [] :=
  ⟨fun h => List.Perm.eq_nil (h ▸ (brandOrder_perm env rows).symm), fun h => by
    subst h
    unfold brandOrder indexOrder
    split <;> rfl⟩

/-- Rows that stand in the order of their names are delivered as they stand,
whichever access path the engine takes. -/
theorem brandOrder_of_names_sorted (env : Env) (rows : List Firearm)
    (h : (rows.map Firearm.Name).Pairwise fun a b => binaryLE a.data b.data = true) :
    brandOrder env rows = rows := by
  unfold brandOrder indexOrder
  split
  · exact List.Sorted.insertionSort_eq (List.pairwise_map.1 h)
  · rfl

theorem GetFirearmsByBrand_sqlite (env : Env) (t : List Firearm) (v : String) (hv : v ≠ "") :
    GetFirearmsByBrand env (sqlite env t) v =
      ⟨respondRows (.ok (brandOrder env (t.filter fun f => decide (f.Brand = Title env v))))
        ("no firearms found for brand: " ++ v), [.brandEq (Title env v)]⟩ := by
  simp only [GetFirearmsByBrand, hv, if_false, sqlite]

/-- C6 as stated fails: on the sample table the parameters "glo" and "sig sauer"
are answered 404 with no record, although three stored brands contain the
title-cased "Glo" up to case and one contains the title-cased "Sig Sauer" up to
case. -/
theorem brand_substring_counterexample :
    (GetFirearmsByBrand Env.ascii (sqlite Env.ascii sampleTable) "glo").response.status
      = StatusNotFound ∧
    (GetFirearmsByBrand Env.ascii (sqlite Env.ascii sampleTable) "glo").response.records = [] ∧
    (sampleTable.filter fun f => containsNoCase f.Brand (Title Env.ascii "glo")).length = 3 ∧
    (GetFirearmsByBrand Env.ascii (sqlite Env.ascii sampleTable) "sig sauer").response.status
      = StatusNotFound ∧
    (GetFirearmsByBrand Env.ascii (sqlite Env.ascii sampleTable) "sig sauer").response.records
      = [] ∧
    (sampleTable.filter fun f =>
      containsNoCase f.Brand (Title Env.ascii "sig sauer")).length = 1 := by
  decide

/-- C6, amended: for a non-empty parameter `v`, the records `GetFirearmsByBrand`
returns are exactly the records whose stored brand is equal to the title-cased
`v`, character for character (each of them once); the status is 200 when there
is such a record and 404 when there is none. -/
theorem brand_exact (env : Env) (t : List Firearm) (v : String) (hv : v ≠ "") :
    (GetFirearmsByBrand env (sqlite env t) v).response.records.Perm
        (t.filter fun f => decide (f.Brand = Title env v)) ∧
    ((GetFirearmsByBrand env (sqlite env t) v).response.status =
        if (t.filter fun f => decide (f.Brand = Title env v)) = [] then StatusNotFound
        else StatusOK) := by
  rw [GetFirearmsByBrand_sqlite env t v hv, respondRows_ok_records, respondRows_ok_status]
  refine ⟨brandOrder_perm env _, ?_⟩
  by_cases h : (t.filter fun f => decide (f.Brand = Title env v)) = []
  · rw [if_pos h, if_pos ((brandOrder_eq_nil_iff env _).2 h)]
  · rw [if_neg h, if_neg fun h2 => h ((brandOrder_eq_nil_iff env _).1 h2)]

/-- C6 amended, on the sample table with the parameter "glock". -/
theorem brand_exact_witness :
    "glock" ≠ "" ∧
    (GetFirearmsByBrand Env.ascii (sqlite Env.ascii sampleTable) "glock").response.records.Perm
      (sampleTable.filter fun f => decide (f.Brand = Title Env.ascii "glock")) :=
  ⟨by decide, (brand_exact Env.ascii sampleTable "glock" (by decide)).1⟩

theorem filter_map_toGun (rows : List Firearm) (p : Gun → Bool) (r : Gun → String) :
    (rows.filter fun f => p f.toGun).map (fun f => r f.toGun) =
      ((rows.map Firearm.toGun).filter p).map r := by
  induction rows with
  | nil => rfl
  | cons f fs ih =>
    simp only [List.filter_cons, List.map_cons]
    split
    · simp only [List.map_cons, ih]
    · exact ih

set_option maxRecDepth 100000 in
theorem glock_names_mergeGuns :
    ((mergeGuns [] firearms).filter fun g => decide (g.brand = "Glock")).map Gun.name
      = ["19", "20", "21"] := by
  decide!

/-- C9: on the seeded table, `GetFirearmsByBrand` with the parameter "glock"
answers 200 with exactly three records, named "19", "20" and "21" in this
order.  (The three stand in this order in the table and in the index.) -/
theorem brand_glock (env : Env) (now : Nat → String) :
    (GetFirearmsByBrand env (sqlite env (seeded env now).rows) "glock").response.status
      = StatusOK ∧
    (∃ list, (GetFirearmsByBrand env (sqlite env (seeded env now).rows) "glock").response.body
      = .firearms list ∧ list.length = 3 ∧ list.map Firearm.Name = ["19", "20", "21"]) := by
  have htitle : Title env "glock" = "Glock" := by
    rw [Title_ascii env "glock" (by decide)]
    decide
  have hnames : ((seeded env now).rows.filter fun f => decide (f.Brand = "Glock")).map Firearm.Name
      = ["19", "20", "21"] := by
    have := filter_map_toGun (seeded env now).rows (fun g => decide (g.brand = "Glock")) Gun.name
    rw [(seeded_toGun env now).2, glock_names_mergeGuns] at this
    exact this
  have hlen : ((seeded env now).rows.filter fun f => decide (f.Brand = "Glock")).length = 3 := by
    have := congrArg List.length hnames
    simpa using this
  have hne : ((seeded env now).rows.filter fun f => decide (f.Brand = "Glock")) ≠ [] := by
    intro h
    rw [h] at hlen
    cases hlen
  have hord : brandOrder env ((seeded env now).rows.filter fun f => decide (f.Brand = "Glock"))
      = (seeded env now).rows.filter fun f => decide (f.Brand = "Glock") := by
    apply brandOrder_of_names_sorted
    rw [hnames]
    decide
  rw [GetFirearmsByBrand_sqlite env _ "glock" (by decide), htitle, hord,
    respondRows_ok_of_ne_nil _ _ hne]
  exact ⟨rfl, _, rfl, hlen, hnames⟩

/-! ## Brand results against the full list (C4) -/

/-- Splitting a list by the values of a key: the groups of the distinct keys,
concatenated, hold every element exactly once. -/
theorem flatMap_filter_perm {α κ : Type} [DecidableEq κ] (key : α → κ) (ks : List κ)
    (l : List α) (hnd : ks.Nodup) (hks : ∀ x ∈ l, key x ∈ ks) :
    List.Perm (ks.flatMap fun b => l.filter fun x => decide (key x = b)) l := by
  induction ks generalizing l with
  | nil =>
    cases l with
    | nil => exact List.Perm.refl _
    | cons x xs => exact absurd (hks x (List.mem_cons_self _ _)) (List.not_mem_nil _)
  | cons b ks ih =>
    rw [List.flatMap_cons]
    have hb : b ∉ ks := (List.nodup_cons.1 hnd).1
    have hrest : (ks.flatMap fun c => l.filter fun x => decide (key x = c)) =
        ks.flatMap fun c =>
          (l.filter fun x => !decide (key x = b)).filter fun x => decide (key x = c) := by
      apply List.flatMap_congr
      intro c hc
      rw [List.filter_filter]
      apply List.filter_congr
      intro x _
      by_cases hxc : key x = c
      · have hcb : c ≠ b := fun h => hb (h ▸ hc)
        simp only [hxc, hcb, decide_True, decide_False, Bool.not_false, Bool.and_true]
      · simp only [hxc, decide_False, Bool.false_and]
    rw [hrest]
    have hperm := ih (l.filter fun x => !decide (key x = b)) (List.nodup_cons.1 hnd).2 (by
      intro x hx
      rw [List.mem_filter] at hx
      rcases List.mem_cons.1 (hks x hx.1) with h | h
      · simp [h] at hx
      · exact h)
    exact (List.Perm.append (List.Perm.refl _) hperm).trans
      (List.filter_append_perm (fun x => decide (key x = b)) l)

theorem flatMap_perm_congr {α β : Type} (ks : List α) (f g : α → List β)
    (h : ∀ k ∈ ks, (f k).Perm (g k)) : (ks.flatMap f).Perm (ks.flatMap g) := by
  induction ks with
  | nil => exact List.Perm.refl _
  | cons k ks ih =>
    rw [List.flatMap_cons, List.flatMap_cons]
    exact List.Perm.append (h k (List.mem_cons_self _ _))
      (ih fun x hx => h x (List.mem_cons_of_mem _ hx))

set_option maxRecDepth 100000 in
theorem mergeGuns_brands_titled :
    ∀ g ∈ mergeGuns [] firearms,
      g.brand ≠ "" ∧ (∀ r ∈ g.brand.data, r.toNat ≤ 0x7F) ∧ Title Env.ascii g.brand = g.brand := by
  decide!

theorem brand_partition_of_titled (env : Env) (rows : List Firearm)
    (h : ∀ f ∈ rows, f.Brand ≠ "" ∧ Title env f.Brand = f.Brand) :
    (∀ b ∈ rows.map Firearm.Brand,
      (GetFirearmsByBrand env (sqlite env rows) b).response.status = StatusOK ∧
      (GetFirearmsByBrand env (sqlite env rows) b).response.records.Perm
        (rows.filter fun f => decide (f.Brand = b))) ∧
    List.Perm
      ((rows.map Firearm.Brand).dedup.flatMap
        fun b => (GetFirearmsByBrand env (sqlite env rows) b).response.records)
      rows := by
  have hbrand : ∀ b ∈ rows.map Firearm.Brand,
      (GetFirearmsByBrand env (sqlite env rows) b).response.status = StatusOK ∧
      (GetFirearmsByBrand env (sqlite env rows) b).response.records.Perm
        (rows.filter fun f => decide (f.Brand = b)) := by
    intro b hb
    obtain ⟨f, hf, rfl⟩ := List.mem_map.1 hb
    have hmem : f ∈ rows.filter fun g => decide (g.Brand = f.Brand) := by
      simp only [List.mem_filter, hf, decide_True, and_self]
    have hne : brandOrder env (rows.filter fun g => decide (g.Brand = f.Brand)) ≠ [] :=
      fun h2 => List.ne_nil_of_mem hmem ((brandOrder_eq_nil_iff env _).1 h2)
    rw [GetFirearmsByBrand_sqlite env _ f.Brand (h f hf).1, (h f hf).2,
      respondRows_ok_of_ne_nil _ _ hne]
    exact ⟨rfl, brandOrder_perm env _⟩
  refine ⟨hbrand, ?_⟩
  exact (flatMap_perm_congr _ _ _ fun b hb => (hbrand b (List.mem_dedup.1 hb)).2).trans
    (flatMap_filter_perm Firearm.Brand _ _ (List.nodup_dedup _)
      fun x hx => List.mem_dedup.2 (List.mem_map_of_mem Firearm.Brand hx))

theorem seeded_brands_titled (env : Env) (now : Nat → String) :
    ∀ f ∈ (seeded env now).rows, f.Brand ≠ "" ∧ Title env f.Brand = f.Brand := by
  intro f hf
  have hg : f.toGun ∈ mergeGuns [] firearms :=
    (seeded_toGun env now).2 ▸ List.mem_map_of_mem Firearm.toGun hf
  obtain ⟨hne, hascii, htitle⟩ := mergeGuns_brands_titled f.toGun hg
  exact ⟨hne, (Title_ascii env f.Brand hascii).trans htitle⟩

/-- C4: on the seeded table, `GetAllFirearms` answers 200 with the records of
the table, in table order; for every brand value `b` stored in the table
`GetFirearmsByBrand` answers 200 with exactly the records of the table whose
brand is `b` (each of them once); and the results for the distinct brands stored
in the table, put end to end, are a permutation of the `GetAllFirearms`
result. -/
theorem brand_partition (env : Env) (now : Nat → String) :
    (GetAllFirearms (sqlite env (seeded env now).rows)).response =
      ⟨StatusOK, .firearms (seeded env now).rows⟩ ∧
    (∀ b ∈ (seeded env now).rows.map Firearm.Brand,
      (GetFirearmsByBrand env (sqlite env (seeded env now).rows) b).response.status = StatusOK ∧
      (GetFirearmsByBrand env (sqlite env (seeded env now).rows) b).response.records.Perm
        ((seeded env now).rows.filter fun f => decide (f.Brand = b))) ∧
    List.Perm
      (((seeded env now).rows.map Firearm.Brand).dedup.flatMap
        fun b => (GetFirearmsByBrand env (sqlite env (seeded env now).rows) b).response.records)
      (GetAllFirearms (sqlite env (seeded env now).rows)).response.records := by
  have hall : ∀ rows : List Firearm,
      (GetAllFirearms (sqlite env rows)).response = ⟨StatusOK, .firearms rows⟩ := fun _ => rfl
  have hrec : ∀ rows : List Firearm,
      (GetAllFirearms (sqlite env rows)).response.records = rows := fun _ => rfl
  have h := brand_partition_of_titled env _ (seeded_brands_titled env now)
  rw [hrec]
  exact ⟨hall _, h.1, h.2⟩

/-! ## Seeding twice (C5) -/

theorem insertEach_sqliteExec_cons (env : Env) (now : Nat → String) (gun : Gun) (rest : List Gun) (k : Nat)
    (db : Store) :
    insertEach (sqliteExec env now) (gun :: rest) k db =
      insertEach (sqliteExec env now) rest (k + 1) (insertOrIgnore env (now k) db gun) := rfl

theorem conflicts_append (rows more : List Firearm) (gun : Gun) :
    conflicts (rows ++ more) gun = (conflicts rows gun || conflicts more gun) := by
  simp only [conflicts, List.any_append]

theorem conflicts_insertOrIgnore_self (env : Env) (now : String) (db : Store) (gun : Gun) :
    conflicts (insertOrIgnore env now db gun).rows gun = true := by
  rw [insertOrIgnore_rows]
  split
  · assumption
  · rw [conflicts_append]
    simp [conflicts, Gun.toRow]

theorem conflicts_insertOrIgnore_mono (env : Env) (now : String) (db : Store) (gun other : Gun)
    (h : conflicts db.rows other = true) :
    conflicts (insertOrIgnore env now db gun).rows other = true := by
  rw [insertOrIgnore_rows]
  split
  · exact h
  · rw [conflicts_append, h]; rfl

theorem conflicts_insertEach_mono (env : Env) (now : Nat → String) (guns : List Gun) (k : Nat) (db : Store)
    (other : Gun) (h : conflicts db.rows other = true) :
    conflicts (insertEach (sqliteExec env now) guns k db).1.rows other = true := by
  induction guns generalizing k db with
  | nil => exact h
  | cons gun rest ih =>
    rw [insertEach_sqliteExec_cons]
    exact ih _ _ (conflicts_insertOrIgnore_mono env _ _ _ _ h)

/-- After the pass, the pair of every entry of the list is in the table. -/
theorem conflicts_after_insertEach (env : Env) (now : Nat → String) (guns : List Gun) (k : Nat) (db : Store) :
    ∀ gun ∈ guns, conflicts (insertEach (sqliteExec env now) guns k db).1.rows gun = true := by
  induction guns generalizing k db with
  | nil => intro gun hg; cases hg
  | cons g rest ih =>
    intro gun hg
    rw [insertEach_sqliteExec_cons]
    rcases List.mem_cons.1 hg with rfl | hmem
    · exact conflicts_insertEach_mono env _ _ _ _ _ (conflicts_insertOrIgnore_self env _ _ _)
    · exact ih _ _ gun hmem

/-- A pass over entries whose pairs are all in the table leaves the rows as they
are. -/
theorem insertEach_rows_of_conflicts (env : Env) (now : Nat → String) (guns : List Gun) (k : Nat)
    (db : Store) (h : ∀ gun ∈ guns, conflicts db.rows gun = true) :
    (insertEach (sqliteExec env now) guns k db).1.rows = db.rows := by
  induction guns generalizing k db with
  | nil => rfl
  | cons g rest ih =>
    rw [insertEach_sqliteExec_cons]
    have hg : conflicts db.rows g = true := h g (List.mem_cons_self _ _)
    have hrows : (insertOrIgnore env (now k) db g).rows = db.rows := by
      rw [insertOrIgnore_rows, if_pos hg]
    rw [ih (k + 1) (insertOrIgnore env (now k) db g) (by
      intro gun hgun
      rw [hrows]
      exact h gun (List.mem_cons_of_mem _ hgun)), hrows]

/-- C5: for every store (whether or not its (brand, name) pairs are distinct),
a first run of `InsertFirearms` returns no error, and a second run on the
resulting store returns no error and leaves the rows of the table exactly as the
first run left them: the same records, hence the same number of records and the
same (brand, name) pairs. -/
theorem seed_twice (env : Env) (db : Store) (now1 now2 : Nat → String) :
    (InsertFirearms (sqliteExec env now1) db).2 = none ∧
    (InsertFirearms (sqliteExec env now2) (InsertFirearms (sqliteExec env now1) db).1).2 = none ∧
    (InsertFirearms (sqliteExec env now2) (InsertFirearms (sqliteExec env now1) db).1).1.rows =
      (InsertFirearms (sqliteExec env now1) db).1.rows ∧
    (InsertFirearms (sqliteExec env now2) (InsertFirearms (sqliteExec env now1) db).1).1.rows.length =
      (InsertFirearms (sqliteExec env now1) db).1.rows.length ∧
    (InsertFirearms (sqliteExec env now2) (InsertFirearms (sqliteExec env now1) db).1).1.rows.map
        (fun f => (f.Brand, f.Name)) =
      (InsertFirearms (sqliteExec env now1) db).1.rows.map (fun f => (f.Brand, f.Name)) := by
  have hrows : (InsertFirearms (sqliteExec env now2) (InsertFirearms (sqliteExec env now1) db).1).1.rows =
      (InsertFirearms (sqliteExec env now1) db).1.rows :=
    insertEach_rows_of_conflicts env now2 firearms 0 _
      (conflicts_after_insertEach env now1 firearms 0 db)
  exact ⟨(insertEach_sqliteExec env now1 firearms 0 db).1,
    (insertEach_sqliteExec env now2 firearms 0 _).1, hrows, by rw [hrows], by rw [hrows]⟩

/-! ## LIKE with a wildcard-free parameter (C8) -/

theorem byteLength_cons (c : Char) (l : List Char) :
    byteLength (c :: l) = c.utf8Size + byteLength l := by
  simp only [byteLength, List.map_cons, List.sum_cons]

theorem byteLength_append (l m : List Char) :
    byteLength (l ++ m) = byteLength l + byteLength m := by
  simp only [byteLength, List.map_append, List.sum_append]

/-- The pattern is two bytes longer than the parameter. -/
theorem byteLength_pattern (l : List Char) :
    byteLength ('%' :: (l ++ ['%'])) = byteLength l + 2 := by
  have h1 : ('%' : Char).utf8Size = 1 := by decide
  have h2 : byteLength ['%'] = 1 := by decide
  rw [byteLength_cons, byteLength_append, h1, h2]
  omega

theorem newRowid_of_le_seq (db : Store) (h0 : 0 ≤ db.seq) (h : ∀ f ∈ db.rows, f.ID ≤ db.seq) :
    newRowid db = db.seq + 1 := by
  unfold newRowid
  cases hm : (db.rows.map Firearm.ID).max? with
  | none =>
    simp only
    split <;> omega
  | some m =>
    have hmem : m ∈ db.rows.map Firearm.ID := List.max?_mem (fun a b => max_choice a b) hm
    obtain ⟨f, hf, rfl⟩ := List.mem_map.1 hmem
    have := h f hf
    simp only
    split <;> omega

theorem insertOrIgnore_seq (env : Env) (now : String) (db : Store) (gun : Gun) :
    (insertOrIgnore env now db gun).seq = newRowid db ∨
    (conflicts db.rows gun = true ∧ (insertOrIgnore env now db gun).seq = db.seq) := by
  unfold insertOrIgnore
  split
  · rename_i hc
    by_cases hb : env.ignoredInsertUsesRowid = true
    · exact Or.inl (if_pos hb)
    · exact Or.inr ⟨hc, if_neg hb⟩
  · exact Or.inl rfl

/-- While the counter is at least every rowid of the table, an insert moves it
up by at most one and keeps it so. -/
theorem insertOrIgnore_ID_le (env : Env) (now : String) (db : Store) (gun : Gun)
    (h0 : 0 ≤ db.seq) (h : ∀ f ∈ db.rows, f.ID ≤ db.seq) :
    (db.seq ≤ (insertOrIgnore env now db gun).seq ∧
      (insertOrIgnore env now db gun).seq ≤ db.seq + 1) ∧
    ∀ f ∈ (insertOrIgnore env now db gun).rows, f.ID ≤ (insertOrIgnore env now db gun).seq := by
  have hid := newRowid_of_le_seq db h0 h
  rcases insertOrIgnore_seq env now db gun with hs | ⟨hc, hs⟩
  · rw [hs, hid, insertOrIgnore_rows]
    refine ⟨⟨by omega, le_refl _⟩, ?_⟩
    intro f hf
    split at hf
    · have := h f hf; omega
    · rcases List.mem_append.1 hf with hf | hf
      · have := h f hf; omega
      · rw [List.mem_singleton] at hf
        rw [hf, ← hid]
        exact le_of_eq rfl
  · rw [hs, insertOrIgnore_rows, if_pos hc]
    exact ⟨⟨le_refl _, by omega⟩, h⟩

theorem insertEach_ID_le (env : Env) (now : Nat → String) (guns : List Gun) (k : Nat) (db : Store)
    (h0 : 0 ≤ db.seq) (h : ∀ f ∈ db.rows, f.ID ≤ db.seq) :
    ∀ f ∈ (insertEach (sqliteExec env now) guns k db).1.rows, f.ID ≤ db.seq + guns.length := by
  induction guns generalizing k db with
  | nil =>
    intro f hf
    have := h f hf
    simp only [List.length_nil, Nat.cast_zero, add_zero]
    exact this
  | cons g rest ih =>
    rw [insertEach_sqliteExec_cons]
    obtain ⟨hseq, hle⟩ := insertOrIgnore_ID_le env (now k) db g h0 h
    intro f hf
    have := ih (k + 1) (insertOrIgnore env (now k) db g) (by omega) hle f hf
    simp only [List.length_cons, Nat.cast_add, Nat.cast_one]
    omega

/-- No identifier of the seeded table exceeds the number of entries of the
reference list. -/
theorem seeded_ID_le (env : Env) (now : Nat → String) :
    ∀ f ∈ (seeded env now).rows, f.ID ≤ 75 := by
  have h := insertEach_ID_le env now firearms 0 Store.empty (le_refl _)
    (fun f hf => absurd hf (List.not_mem_nil f))
  have hlen : firearms.length = 75 := by decide
  intro f hf
  have := h f hf
  rw [hlen] at this
  exact this

/-! ## Lookup by identifier (C3) -/

/-- C3: on a table whose identifiers are pairwise distinct, `GetFirearmByID`
called with the decimal text of a 64-bit integer `i` answers 200 with the one
record whose identifier is `i` when the table holds such a record, and 404 when
no record of the table has identifier `i`; on the seeded table the parameter
"9999" is answered 404. -/
theorem id_lookup (env : Env) (t : List Firearm) (i : Int)
    (hi : minInt64 ≤ i ∧ i ≤ maxInt64) (hu : (t.map Firearm.ID).Nodup) :
    (∀ f ∈ t, f.ID = i →
      (GetFirearmByID (sqlite env t) (Itoa i)).response = ⟨StatusOK, .firearm f⟩ ∧
      (GetFirearmByID (sqlite env t) (Itoa i)).response.records = [f]) ∧
    ((∀ f ∈ t, f.ID ≠ i) →
      (GetFirearmByID (sqlite env t) (Itoa i)).response.status = StatusNotFound) ∧
    ∀ now : Nat → String,
      (GetFirearmByID (sqlite env (seeded env now).rows) "9999").response.status
        = StatusNotFound := by
  have hq : ∀ (rows : List Firearm) (j : Int), minInt64 ≤ j ∧ j ≤ maxInt64 →
      sqlite env rows (.idEq (Itoa j)) = .ok (rows.filter fun g => decide (g.ID = j)) := by
    intro rows j hj
    simp only [sqlite, intEqText_Itoa env _ j hj]
  have hmiss : ∀ (rows : List Firearm) (j : Int), minInt64 ≤ j ∧ j ≤ maxInt64 →
      (∀ f ∈ rows, f.ID ≠ j) →
      (GetFirearmByID (sqlite env rows) (Itoa j)).response.status = StatusNotFound := by
    intro rows j hj hnone
    have hnil : rows.filter (fun g => decide (g.ID = j)) = [] := by
      apply List.filter_eq_nil_iff.2
      intro g hg
      simpa using hnone g hg
    simp only [GetFirearmByID, Itoa_ne_empty, if_false, hq rows j hj, hnil]
  refine ⟨?_, hmiss t i hi, ?_⟩
  · intro f hf hfi
    subst hfi
    simp only [GetFirearmByID, Itoa_ne_empty, if_false, hq t _ hi,
      filter_ID_eq_singleton t hu f hf, Response.records, and_self]
  · intro now
    have htxt : "9999" = Itoa 9999 := by decide
    rw [htxt]
    apply hmiss _ 9999 (by decide)
    intro f hf heq
    have := seeded_ID_le env now f hf
    omega

/-- C3 on the sample table: `/id/2` returns the record stored under 2, and
`/id/9999` is answered 404. -/
theorem id_lookup_witness :
    ((minInt64 ≤ 2 ∧ 2 ≤ maxInt64) ∧ (sampleTable.map Firearm.ID).Nodup) ∧
    (∃ f ∈ sampleTable, f.ID = 2 ∧
      (GetFirearmByID (sqlite Env.ascii sampleTable) (Itoa 2)).response
        = ⟨StatusOK, .firearm f⟩) ∧
    (GetFirearmByID (sqlite Env.ascii (seeded Env.ascii fun _ => "2025-01-01 00:00:00").rows)
      "9999").response.status = StatusNotFound :=
  ⟨⟨by decide, by decide⟩,
   ⟨sampleTable.get ⟨1, by decide⟩, by decide, by decide,
    ((id_lookup Env.ascii sampleTable 2 (by decide) (by decide)).1 _ (by decide) (by decide)).1⟩,
   (id_lookup Env.ascii sampleTable 2 (by decide) (by decide)).2.2 _⟩

/-! ## Uniqueness of (brand, name) under seeding (C11) -/

theorem conflicts_iff_pair_mem (rows : List Firearm) (gun : Gun) :
    conflicts rows gun = true ↔ gun.pair ∈ rows.map Firearm.pair := by
  simp only [conflicts, List.any_eq_true, decide_eq_true_eq, List.mem_map, Gun.pair,
    Firearm.pair, Prod.mk.injEq]

theorem pair_toRow (gun : Gun) (id : Int) (now : String) :
    (gun.toRow id now).pair = gun.pair := rfl

/-- One insert keeps the pairs of the table distinct and keeps the rows that
were there, in place. -/
theorem insertOrIgnore_pairs_nodup (env : Env) (now : String) (db : Store) (gun : Gun)
    (h : (db.rows.map Firearm.pair).Nodup) :
    ((insertOrIgnore env now db gun).rows.map Firearm.pair).Nodup := by
  rw [insertOrIgnore_rows]
  by_cases hc : conflicts db.rows gun = true
  · rw [if_pos hc]
    exact h
  · rw [if_neg hc, List.map_append, List.map_cons, List.map_nil, pair_toRow]
    have hnot : gun.pair ∉ db.rows.map Firearm.pair :=
      fun hm => hc ((conflicts_iff_pair_mem db.rows gun).2 hm)
    rw [List.nodup_append]
    refine ⟨h, List.nodup_singleton _, ?_⟩
    intro a ha hb
    rw [List.mem_singleton] at hb
    exact hnot (hb ▸ ha)

theorem insertOrIgnore_rows_kept (env : Env) (now : String) (db : Store) (gun : Gun) :
    db.rows <+: (insertOrIgnore env now db gun).rows := by
  rw [insertOrIgnore_rows]
  split
  · exact List.prefix_refl _
  · exact List.prefix_append _ _

theorem insertEach_pairs_nodup (env : Env) (now : Nat → String) (guns : List Gun) (k : Nat)
    (db : Store) (h : (db.rows.map Firearm.pair).Nodup) :
    ((insertEach (sqliteExec env now) guns k db).1.rows.map Firearm.pair).Nodup := by
  induction guns generalizing k db with
  | nil => exact h
  | cons gun rest ih =>
    rw [insertEach_sqliteExec_cons]
    exact ih _ _ (insertOrIgnore_pairs_nodup env _ db gun h)

theorem insertEach_rows_kept (env : Env) (now : Nat → String) (guns : List Gun) (k : Nat)
    (db : Store) : db.rows <+: (insertEach (sqliteExec env now) guns k db).1.rows := by
  induction guns generalizing k db with
  | nil => exact List.prefix_refl _
  | cons gun rest ih =>
    rw [insertEach_sqliteExec_cons]
    exact (insertOrIgnore_rows_kept env _ db gun).trans (ih _ _)

/-- A pass over a list is the pass over its first `n` entries followed, when
that returned no error, by the pass over the rest. -/
theorem insertEach_append {σ : Type} (exec : Nat → σ → Gun → Except String σ)
    (pre post : List Gun) (k : Nat) (db : σ) :
    insertEach exec (pre ++ post) k db =
      match (insertEach exec pre k db).2 with
      | none => insertEach exec post (k + pre.length) (insertEach exec pre k db).1
      | some err => ((insertEach exec pre k db).1, some err) := by
  induction pre generalizing k db with
  | nil => simp only [List.nil_append, insertEach, List.length_nil, Nat.add_zero]
  | cons gun rest ih =>
    simp only [List.cons_append, insertEach, List.length_cons]
    cases hx : exec k db gun with
    | error err => rfl
    | ok db2 =>
      have hlen : k + (rest.length + 1) = k + 1 + rest.length := by omega
      simp only [hlen]
      exact ih (k + 1) db2

set_option maxRecDepth 100000 in
theorem firearms_split_48 :
    firearms = firearms.take 48 ++ firearms.get ⟨48, by decide⟩ :: firearms.drop 49 := by
  decide!

set_option maxRecDepth 100000 in
theorem firearms_48_mem_take :
    firearms.get ⟨48, by decide⟩ ∈ firearms.take 48 := by
  decide!

set_option maxRecDepth 100000 in
theorem firearms_48_eq :
    firearms.get ⟨48, by decide⟩ =
      ⟨"Kalashnikov", "Saiga-12", "12 Gauge", "Shotgun", 8, 50, 1997, 1000,
        "Kalashnikov Concern", 3.6, 43.0, "Semi-Auto", "Russia"⟩ := by
  decide!

theorem insertEach_firearms_split (env : Env) (now : Nat → String) (db : Store) :
    InsertFirearms (sqliteExec env now) db =
      insertEach (sqliteExec env now) (firearms.get ⟨48, by decide⟩ :: firearms.drop 49) 48
        (insertEach (sqliteExec env now) (firearms.take 48) 0 db).1 := by
  have hlen : (firearms.take 48).length = 48 := by decide
  have h := insertEach_append (sqliteExec env now) (firearms.take 48)
    (firearms.get ⟨48, by decide⟩ :: firearms.drop 49) 0 db
  rw [← firearms_split_48, (insertEach_sqliteExec env now (firearms.take 48) 0 db).1, hlen] at h
  exact h

/-- C11: seeding a table whose (brand, name) pairs are pairwise distinct returns
no error and leaves a table whose pairs are pairwise distinct, with the rows it
held before unchanged and in place.  An insert whose pair is in the table
returns no error and leaves the rows as they are; this is what happens to the
second "Kalashnikov" "Saiga-12" entry of the list, whose pair is in the table
when the loop reaches it. -/
theorem seeding_keeps_pairs_unique (env : Env) (now : Nat → String) (db : Store)
    (h : (db.rows.map Firearm.pair).Nodup) :
    ((InsertFirearms (sqliteExec env now) db).1.rows.map Firearm.pair).Nodup ∧
    (InsertFirearms (sqliteExec env now) db).2 = none ∧
    db.rows <+: (InsertFirearms (sqliteExec env now) db).1.rows ∧
    (∀ (s : Store) (k : Nat) (gun : Gun), gun.pair ∈ s.rows.map Firearm.pair →
      ∃ s2, sqliteExec env now k s gun = .ok s2 ∧ s2.rows = s.rows) ∧
    (firearms.get ⟨48, by decide⟩).pair = ("Kalashnikov", "Saiga-12") ∧
    InsertFirearms (sqliteExec env now) db =
      insertEach (sqliteExec env now) (firearms.get ⟨48, by decide⟩ :: firearms.drop 49) 48
        (insertEach (sqliteExec env now) (firearms.take 48) 0 db).1 ∧
    (firearms.get ⟨48, by decide⟩).pair ∈
      (insertEach (sqliteExec env now) (firearms.take 48) 0 db).1.rows.map Firearm.pair := by
  refine ⟨insertEach_pairs_nodup env now firearms 0 db h,
    (insertEach_sqliteExec env now firearms 0 db).1,
    insertEach_rows_kept env now firearms 0 db, ?_, ?_,
    insertEach_firearms_split env now db, ?_⟩
  · intro s k gun hmem
    refine ⟨insertOrIgnore env (now k) s gun, rfl, ?_⟩
    rw [insertOrIgnore_rows, if_pos ((conflicts_iff_pair_mem s.rows gun).2 hmem)]
  · rw [firearms_48_eq]
    rfl
  · exact (conflicts_iff_pair_mem _ _).1
      (conflicts_after_insertEach env now (firearms.take 48) 0 db _ firearms_48_mem_take)

/-- C11 on the store that holds the sample table. -/
theorem seeding_keeps_pairs_unique_witness :
    ((sampleTable.map Firearm.pair).Nodup) ∧
    ((InsertFirearms (sqliteExec Env.ascii fun _ => "2025-01-02 00:00:00")
        ⟨sampleTable, 9⟩).1.rows.map Firearm.pair).Nodup ∧
    sampleTable <+: (InsertFirearms (sqliteExec Env.ascii fun _ => "2025-01-02 00:00:00")
        ⟨sampleTable, 9⟩).1.rows :=
  have r := seeding_keeps_pairs_unique Env.ascii (fun _ => "2025-01-02 00:00:00")
    ⟨sampleTable, 9⟩ (by decide)
  ⟨by decide, r.1, r.2.2.1⟩

/-! ## The reference list and the seeded table (C15) -/

set_option maxRecDepth 100000 in
theorem firearms_pairs :
    firearms.length = 75 ∧
    (firearms.map Gun.pair).dedup.length = 74 ∧
    (firearms.get ⟨48, by decide⟩).pair = (firearms.get ⟨44, by decide⟩).pair ∧
    ((firearms.eraseIdx 48).map Gun.pair).Nodup := by
  decide!

set_option maxRecDepth 100000 in
theorem mergeGuns_firearms : mergeGuns [] firearms = firearms.eraseIdx 48 := by
  decide!

theorem map_pair_toGun (rows : List Firearm) :
    (rows.map Firearm.toGun).map Gun.pair = rows.map Firearm.pair := by
  rw [List.map_map]
  rfl

/-- C15: the reference list has 75 entries with 74 distinct (brand, name) pairs:
entry 49 repeats the pair of entry 45 and no pair repeats among the others.
Seeding an empty store leaves exactly 74 records with pairwise distinct pairs,
holding the values of the 74 other entries in the order of the list, so every
pair of the list is stored once, at the place of its first occurrence. -/
theorem seeded_records (env : Env) (now : Nat → String) :
    firearms.length = 75 ∧
    (firearms.map Gun.pair).dedup.length = 74 ∧
    (firearms.get ⟨48, by decide⟩).pair = (firearms.get ⟨44, by decide⟩).pair ∧
    ((firearms.eraseIdx 48).map Gun.pair).Nodup ∧
    (seeded env now).rows.length = 74 ∧
    (seeded env now).rows.map Firearm.toGun = firearms.eraseIdx 48 ∧
    ((seeded env now).rows.map Firearm.pair).Nodup ∧
    (∀ gun ∈ firearms, gun.pair ∈ (seeded env now).rows.map Firearm.pair) := by
  have hguns : (seeded env now).rows.map Firearm.toGun = firearms.eraseIdx 48 :=
    (seeded_toGun env now).2.trans mergeGuns_firearms
  have hpairs : (seeded env now).rows.map Firearm.pair = (firearms.eraseIdx 48).map Gun.pair := by
    rw [← map_pair_toGun, hguns]
  have hlen : (seeded env now).rows.length = 74 := by
    have h1 := congrArg List.length hguns
    rw [List.length_map] at h1
    rw [h1]
    decide
  refine ⟨firearms_pairs.1, firearms_pairs.2.1, firearms_pairs.2.2.1, firearms_pairs.2.2.2,
    hlen, hguns, ?_, ?_⟩
  · rw [hpairs]
    exact firearms_pairs.2.2.2
  · intro gun hg
    exact (conflicts_iff_pair_mem _ _).1
      (conflicts_after_insertEach env now firearms 0 Store.empty gun hg)

/-! ## A failing insert (C12) -/

theorem firearms_split_at (k : Nat) (hk : k < firearms.length) :
    firearms = firearms.take k ++ firearms.get ⟨k, hk⟩ :: firearms.drop (k + 1) := by
  rw [List.get_eq_getElem, List.getElem_cons_drop, List.take_append_drop]

/-- The error `InsertFirearms` returns for an entry names it: brand and name
occur in the message. -/
theorem insert_error_names_entry (gun : Gun) (err : String) :
    gun.brand.data <:+:
      ("failed to insert firearm " ++ gun.brand ++ " " ++ gun.name ++ ": " ++ err).data ∧
    gun.name.data <:+:
      ("failed to insert firearm " ++ gun.brand ++ " " ++ gun.name ++ ": " ++ err).data := by
  simp only [String.data_append]
  constructor
  · exact ⟨"failed to insert firearm ".data, " ".data ++ gun.name.data ++ ": ".data ++ err.data,
      by simp only [List.append_assoc]⟩
  · exact ⟨"failed to insert firearm ".data ++ gun.brand.data ++ " ".data, ": ".data ++ err.data,
      by simp only [List.append_assoc]⟩

/-- C12: for every database and every behaviour of `db.Exec`, if the inserts of
the first `k` entries of the list return no error and the insert of entry `k`
fails with the storage error `err`, then `InsertFirearms` returns the error
"failed to insert firearm <brand> <name>: <err>" for that entry, in which its
brand and its name occur, and the database it leaves is the one the first `k`
inserts produced: nothing is executed for the failing entry's successors. -/
theorem seeding_stops_at_failure {σ : Type} (exec : Nat → σ → Gun → Except String σ) (db : σ)
    (k : Nat) (hk : k < firearms.length) (err : String)
    (hpre : (insertEach exec (firearms.take k) 0 db).2 = none)
    (hfail : exec k (insertEach exec (firearms.take k) 0 db).1 (firearms.get ⟨k, hk⟩)
      = .error err) :
    InsertFirearms exec db =
      ((insertEach exec (firearms.take k) 0 db).1,
        some ("failed to insert firearm " ++ (firearms.get ⟨k, hk⟩).brand ++ " " ++
          (firearms.get ⟨k, hk⟩).name ++ ": " ++ err)) ∧
    (firearms.get ⟨k, hk⟩).brand.data <:+:
      ("failed to insert firearm " ++ (firearms.get ⟨k, hk⟩).brand ++ " " ++
          (firearms.get ⟨k, hk⟩).name ++ ": " ++ err).data ∧
    (firearms.get ⟨k, hk⟩).name.data <:+:
      ("failed to insert firearm " ++ (firearms.get ⟨k, hk⟩).brand ++ " " ++
          (firearms.get ⟨k, hk⟩).name ++ ": " ++ err).data := by
  refine ⟨?_, insert_error_names_entry _ err⟩
  have hlen : (firearms.take k).length = k := by
    rw [List.length_take]
    omega
  have h := insertEach_append exec (firearms.take k)
    (firearms.get ⟨k, hk⟩ :: firearms.drop (k + 1)) 0 db
  rw [← firearms_split_at k hk, hpre, hlen] at h
  simp only [Nat.zero_add, insertEach, hfail] at h
  exact h

/-- C12 on an empty store whose third insert fails with "database is locked":
the error names "Glock" "21", and the table holds the first two entries only. -/
theorem seeding_stops_at_failure_witness :
    ((insertEach (failingExec Env.ascii (fun _ => "2025-01-01 00:00:00") 2 "database is locked")
        (firearms.take 2) 0 Store.empty).2 = none ∧
      failingExec Env.ascii (fun _ => "2025-01-01 00:00:00") 2 "database is locked" 2
        (insertEach (failingExec Env.ascii (fun _ => "2025-01-01 00:00:00") 2
          "database is locked") (firearms.take 2) 0 Store.empty).1
        (firearms.get ⟨2, by decide⟩) = .error "database is locked") ∧
    (InsertFirearms (failingExec Env.ascii (fun _ => "2025-01-01 00:00:00") 2
        "database is locked") Store.empty).2 =
      some "failed to insert firearm Glock 21: database is locked" ∧
    (InsertFirearms (failingExec Env.ascii (fun _ => "2025-01-01 00:00:00") 2
        "database is locked") Store.empty).1.rows.map Firearm.toGun = firearms.take 2 :=
  have hpre : (insertEach (failingExec Env.ascii (fun _ => "2025-01-01 00:00:00") 2
      "database is locked") (firearms.take 2) 0 Store.empty).2 = none := by decide
  have hfail : failingExec Env.ascii (fun _ => "2025-01-01 00:00:00") 2 "database is locked" 2
      (insertEach (failingExec Env.ascii (fun _ => "2025-01-01 00:00:00") 2
        "database is locked") (firearms.take 2) 0 Store.empty).1
      (firearms.get ⟨2, by decide⟩) = .error "database is locked" := rfl
  have r := seeding_stops_at_failure
    (failingExec Env.ascii (fun _ => "2025-01-01 00:00:00") 2 "database is locked")
    Store.empty 2 (by decide) "database is locked" hpre hfail
  ⟨⟨hpre, hfail⟩, by rw [r.1]; decide, by rw [r.1]; decide⟩

/-! ## Bodies of the 400 and 404 responses (C13) -/

theorem respondRows_status_ne_400 (r : Rows) (msg : String) :
    (respondRows r msg).status ≠ StatusBadRequest := by
  cases r with
  | queryError e => simp [respondRows]
  | scanError e => simp [respondRows]
  | rowsError e => simp [respondRows]
  | ok l => cases l <;> simp [respondRows]

theorem respondRows_body_of_404 (r : Rows) (msg : String)
    (h : (respondRows r msg).status = StatusNotFound) :
    (respondRows r msg).body = .H "message" msg := by
  cases r with
  | queryError e => simp [respondRows] at h
  | scanError e => simp [respondRows] at h
  | rowsError e => simp [respondRows] at h
  | ok l =>
    cases l with
    | nil => rfl
    | cons f fs => simp [respondRows] at h

theorem data_suffix_append (a v : String) : v.data <:+ (a ++ v).data := by
  rw [String.data_append]
  exact List.suffix_append _ _

/-- What a list handler answers once its parameter has passed validation: never
a 400, and a 404 only with its message under the key "message". -/
theorem respondRows_error_bodies (r : Rows) (intro v : String) (rejected : Prop)
    (hr : ¬ rejected) :
    ((respondRows r (intro ++ v)).status = StatusBadRequest ↔ rejected) ∧
    ((respondRows r (intro ++ v)).status = StatusBadRequest →
      ∃ msg, (respondRows r (intro ++ v)).body = .H "error" msg) ∧
    ((respondRows r (intro ++ v)).status = StatusNotFound →
      ∃ msg, (respondRows r (intro ++ v)).body = .H "message" msg ∧ v.data <:+ msg.data) :=
  ⟨⟨fun h => absurd h (respondRows_status_ne_400 _ _), fun h => absurd h hr⟩,
   fun h => absurd h (respondRows_status_ne_400 _ _),
   fun h => ⟨_, respondRows_body_of_404 _ _ h, data_suffix_append intro v⟩⟩

/-- C13: for every database handle and every request to a filter route, the
status is 400 exactly when the parameter is empty, a price bound is not accepted
by `strconv.Atoi`, or the minimum price exceeds the maximum; the body of a 400
is the one-key object with key "error"; the body of a 404 is the one-key object
with key "message", and its text ends with the parameter as the caller supplied
it (for the price route, with the two parsed bounds joined by " to ").
`GetAllFirearms` answers neither 400 nor 404. -/
theorem error_bodies (env : Env) (db : DB) (req : FilterRequest) :
    ((route env db req).response.status = StatusBadRequest ↔ req.rejected) ∧
    ((route env db req).response.status = StatusBadRequest →
      ∃ msg, (route env db req).response.body = .H "error" msg) ∧
    ((route env db req).response.status = StatusNotFound →
      ∃ msg, (route env db req).response.body = .H "message" msg ∧
        req.supplied.data <:+ msg.data) ∧
    (GetAllFirearms db).response.status ≠ StatusBadRequest ∧
    (GetAllFirearms db).response.status ≠ StatusNotFound := by
  have hall : (GetAllFirearms db).response.status ≠ StatusBadRequest ∧
      (GetAllFirearms db).response.status ≠ StatusNotFound := by
    simp only [GetAllFirearms]
    cases db Query.all <;> simp
  suffices hmain : ((route env db req).response.status = StatusBadRequest ↔ req.rejected) ∧
      ((route env db req).response.status = StatusBadRequest →
        ∃ msg, (route env db req).response.body = .H "error" msg) ∧
      ((route env db req).response.status = StatusNotFound →
        ∃ msg, (route env db req).response.body = .H "message" msg ∧
          req.supplied.data <:+ msg.data) from ⟨hmain.1, hmain.2.1, hmain.2.2, hall⟩
  cases req with
  | brand v =>
    simp only [route, GetFirearmsByBrand, FilterRequest.rejected, FilterRequest.supplied]
    by_cases hv : v = ""
    · rw [if_pos hv]
      exact ⟨⟨fun _ => hv, fun _ => rfl⟩, fun _ => ⟨_, rfl⟩,
        fun h => absurd h (by decide : ¬ StatusBadRequest = StatusNotFound)⟩
    · rw [if_neg hv]
      exact respondRows_error_bodies _ _ v _ hv
  | name v =>
    simp only [route, GetFirearmsByName, FilterRequest.rejected, FilterRequest.supplied]
    by_cases hv : v = ""
    · rw [if_pos hv]
      exact ⟨⟨fun _ => hv, fun _ => rfl⟩, fun _ => ⟨_, rfl⟩,
        fun h => absurd h (by decide : ¬ StatusBadRequest = StatusNotFound)⟩
    · rw [if_neg hv]
      exact respondRows_error_bodies _ _ v _ hv
  | caliber v =>
    simp only [route, GetFirearmsByCaliber, FilterRequest.rejected, FilterRequest.supplied]
    by_cases hv : v = ""
    · rw [if_pos hv]
      exact ⟨⟨fun _ => hv, fun _ => rfl⟩, fun _ => ⟨_, rfl⟩,
        fun h => absurd h (by decide : ¬ StatusBadRequest = StatusNotFound)⟩
    · rw [if_neg hv]
      exact respondRows_error_bodies _ _ v _ hv
  | year v =>
    simp only [route, GetFirearmsByYear, FilterRequest.rejected, FilterRequest.supplied]
    by_cases hv : v = ""
    · rw [if_pos hv]
      exact ⟨⟨fun _ => hv, fun _ => rfl⟩, fun _ => ⟨_, rfl⟩,
        fun h => absurd h (by decide : ¬ StatusBadRequest = StatusNotFound)⟩
    · rw [if_neg hv]
      exact respondRows_error_bodies _ _ v _ hv
  | type v =>
    simp only [route, GetFirearmsByType, FilterRequest.rejected, FilterRequest.supplied]
    by_cases hv : v = ""
    · rw [if_pos hv]
      exact ⟨⟨fun _ => hv, fun _ => rfl⟩, fun _ => ⟨_, rfl⟩,
        fun h => absurd h (by decide : ¬ StatusBadRequest = StatusNotFound)⟩
    · rw [if_neg hv]
      exact respondRows_error_bodies _ _ v _ hv
  | country v =>
    simp only [route, GetFirearmsByCountry, FilterRequest.rejected, FilterRequest.supplied]
    by_cases hv : v = ""
    · rw [if_pos hv]
      exact ⟨⟨fun _ => hv, fun _ => rfl⟩, fun _ => ⟨_, rfl⟩,
        fun h => absurd h (by decide : ¬ StatusBadRequest = StatusNotFound)⟩
    · rw [if_neg hv]
      exact respondRows_error_bodies _ _ v _ hv
  | price lo hi =>
    simp only [route, GetFirearmsByPrice, FilterRequest.rejected, FilterRequest.supplied]
    by_cases he : lo = "" ∨ hi = ""
    · rw [if_pos he]
      exact ⟨⟨fun _ => he.elim Or.inl fun h => Or.inr (Or.inl h), fun _ => rfl⟩,
        fun _ => ⟨_, rfl⟩, fun h => absurd h (by decide : ¬ StatusBadRequest = StatusNotFound)⟩
    · rw [if_neg he]
      cases hlo : Atoi lo with
      | none =>
        exact ⟨⟨fun _ => Or.inr (Or.inr (Or.inl rfl)), fun _ => rfl⟩, fun _ => ⟨_, rfl⟩,
          fun h => absurd h (by decide : ¬ StatusBadRequest = StatusNotFound)⟩
      | some a =>
        cases hhi : Atoi hi with
        | none =>
          exact ⟨⟨fun _ => Or.inr (Or.inr (Or.inr (Or.inl rfl))), fun _ => rfl⟩,
            fun _ => ⟨_, rfl⟩,
            fun h => absurd h (by decide : ¬ StatusBadRequest = StatusNotFound)⟩
        | some b =>
          by_cases hgt : a > b
          · dsimp only
            rw [if_pos hgt]
            exact ⟨⟨fun _ => Or.inr (Or.inr (Or.inr (Or.inr ⟨a, b, rfl, rfl, hgt⟩))),
                fun _ => rfl⟩, fun _ => ⟨_, rfl⟩,
              fun h => absurd h (by decide : ¬ StatusBadRequest = StatusNotFound)⟩
          · dsimp only
            rw [if_neg hgt]
            have hmsg : "no firearms found for price range: " ++ Itoa a ++ " to " ++ Itoa b =
                "no firearms found for price range: " ++ (Itoa a ++ " to " ++ Itoa b) := by
              simp only [String.append_assoc]
            rw [hmsg]
            apply respondRows_error_bodies
            rintro (h | h | h | h | ⟨a2, b2, ha, hb, hgt2⟩)
            · exact he (Or.inl h)
            · exact he (Or.inr h)
            · cases h
            · cases h
            · cases ha
              cases hb
              exact hgt hgt2
  | id v =>
    simp only [route, GetFirearmByID, FilterRequest.rejected, FilterRequest.supplied]
    by_cases hv : v = ""
    · rw [if_pos hv]
      exact ⟨⟨fun _ => hv, fun _ => rfl⟩, fun _ => ⟨_, rfl⟩,
        fun h => absurd h (by decide : ¬ StatusBadRequest = StatusNotFound)⟩
    · rw [if_neg hv]
      cases db (Query.idEq v) with
      | ok list =>
        cases list with
        | nil =>
          exact ⟨⟨fun h => absurd h (by decide : ¬ StatusNotFound = StatusBadRequest),
              fun h => absurd h hv⟩,
            fun h => absurd h (by decide : ¬ StatusNotFound = StatusBadRequest),
            fun _ => ⟨_, rfl, data_suffix_append _ v⟩⟩
        | cons f fs =>
          exact ⟨⟨fun h => absurd h (by decide : ¬ StatusOK = StatusBadRequest),
              fun h => absurd h hv⟩,
            fun h => absurd h (by decide : ¬ StatusOK = StatusBadRequest),
            fun h => absurd h (by decide : ¬ StatusOK = StatusNotFound)⟩
      | queryError err =>
        exact ⟨⟨fun h => absurd h (by decide : ¬ StatusInternalServerError = StatusBadRequest),
            fun h => absurd h hv⟩,
          fun h => absurd h (by decide : ¬ StatusInternalServerError = StatusBadRequest),
          fun h => absurd h (by decide : ¬ StatusInternalServerError = StatusNotFound)⟩
      | scanError err =>
        exact ⟨⟨fun h => absurd h (by decide : ¬ StatusInternalServerError = StatusBadRequest),
            fun h => absurd h hv⟩,
          fun h => absurd h (by decide : ¬ StatusInternalServerError = StatusBadRequest),
          fun h => absurd h (by decide : ¬ StatusInternalServerError = StatusNotFound)⟩
      | rowsError err =>
        exact ⟨⟨fun h => absurd h (by decide : ¬ StatusInternalServerError = StatusBadRequest),
            fun h => absurd h hv⟩,
          fun h => absurd h (by decide : ¬ StatusInternalServerError = StatusBadRequest),
          fun h => absurd h (by decide : ¬ StatusInternalServerError = StatusNotFound)⟩

/-! ## Title-casing under LIKE (C14) -/

theorem char_of_toNat_range (c : Char) (lo hi : Nat) (h : lo ≤ c.toNat ∧ c.toNat ≤ hi)
    (P : Char → Prop) (hP : ∀ n, lo ≤ n → n ≤ hi → P (Char.ofNat n)) : P c := by
  have := hP c.toNat h.1 h.2
  rwa [Char.ofNat_toNat] at this

theorem asciiLower_upper_facts (n : Nat) (h1 : 65 ≤ n) (h2 : n ≤ 90) :
    Char.ofNat n ≠ '%' ∧ Char.ofNat n ≠ '_' ∧ asciiLower (Char.ofNat n) ≠ '%' ∧
    asciiLower (Char.ofNat n) ≠ '_' ∧
    asciiLower (asciiLower (Char.ofNat n)) = asciiLower (Char.ofNat n) := by
  interval_cases n <;> decide

theorem asciiLower_eq_percent (c : Char) : asciiLower c = '%' ↔ c = '%' := by
  by_cases h : 65 ≤ c.toNat ∧ c.toNat ≤ 90
  · have := char_of_toNat_range c 65 90 h
      (fun x => x ≠ '%' ∧ x ≠ '_' ∧ asciiLower x ≠ '%' ∧ asciiLower x ≠ '_' ∧
        asciiLower (asciiLower x) = asciiLower x) asciiLower_upper_facts
    exact ⟨fun e => absurd e this.2.2.1, fun e => absurd e this.1⟩
  · simp only [asciiLower, h, if_false]

theorem asciiLower_eq_underscore (c : Char) : asciiLower c = '_' ↔ c = '_' := by
  by_cases h : 65 ≤ c.toNat ∧ c.toNat ≤ 90
  · have := char_of_toNat_range c 65 90 h
      (fun x => x ≠ '%' ∧ x ≠ '_' ∧ asciiLower x ≠ '%' ∧ asciiLower x ≠ '_' ∧
        asciiLower (asciiLower x) = asciiLower x) asciiLower_upper_facts
    exact ⟨fun e => absurd e this.2.2.2.1, fun e => absurd e this.2.1⟩
  · simp only [asciiLower, h, if_false]

theorem asciiLower_idem (c : Char) : asciiLower (asciiLower c) = asciiLower c := by
  by_cases h : 65 ≤ c.toNat ∧ c.toNat ≤ 90
  · exact (char_of_toNat_range c 65 90 h
      (fun x => x ≠ '%' ∧ x ≠ '_' ∧ asciiLower x ≠ '%' ∧ asciiLower x ≠ '_' ∧
        asciiLower (asciiLower x) = asciiLower x) asciiLower_upper_facts).2.2.2.2
  · have hc : asciiLower c = c := by simp only [asciiLower, h, if_false]
    rw [hc, hc]

theorem asciiLower_ToTitle_lower (n : Nat) (h1 : 97 ≤ n) (h2 : n ≤ 122) :
    asciiLower (Char.ofNat ((Char.ofNat n).toNat - 32)) = asciiLower (Char.ofNat n) := by
  interval_cases n <;> decide

/-- On an ASCII character title case and the character itself are the same up
to ASCII case. -/
theorem asciiLower_ToTitle (env : Env) (c : Char) (h : c.toNat ≤ 0x7F) :
    asciiLower (ToTitle env c) = asciiLower c := by
  simp only [ToTitle, h, if_true]
  by_cases hl : 97 ≤ c.toNat ∧ c.toNat ≤ 122
  · rw [if_pos hl]
    exact char_of_toNat_range c 97 122 hl
      (fun x => asciiLower (Char.ofNat (x.toNat - 32)) = asciiLower x) asciiLower_ToTitle_lower
  · rw [if_neg hl]

/-- LIKE does not tell a pattern from its ASCII lower-casing. -/
theorem likeMatch_map_asciiLower (p s : List Char) :
    likeMatch (p.map asciiLower) s = likeMatch p s := by
  induction p generalizing s with
  | nil => rfl
  | cons c p ih =>
    have hfun : (fun t => likeMatch (p.map asciiLower) t) = fun t => likeMatch p t :=
      funext fun t => ih t
    by_cases hc : c = '%'
    · subst hc
      have hl : asciiLower '%' = '%' := by decide
      simp only [List.map_cons, likeMatch, hl, if_true, hfun]
    · have hl : ¬ asciiLower c = '%' := fun e => hc ((asciiLower_eq_percent c).1 e)
      cases s with
      | nil => simp only [List.map_cons, likeMatch, hl, hc, if_false]
      | cons d rest =>
        simp only [List.map_cons, likeMatch, hl, hc, if_false, asciiLower_idem, ih rest]
        by_cases hu : c = '_'
        · subst hu
          have hlu : asciiLower '_' = '_' := by decide
          simp only [hlu, decide_True, Bool.true_or]
        · have hlu : ¬ asciiLower c = '_' := fun e => hu ((asciiLower_eq_underscore c).1 e)
          simp only [hu, hlu, decide_False, Bool.false_or]

theorem titleRunes_map_asciiLower (env : Env) (prev : Char) (rs : List Char)
    (h : ∀ r ∈ rs, r.toNat ≤ 0x7F) :
    (titleRunes env prev rs).map asciiLower = rs.map asciiLower := by
  induction rs generalizing prev with
  | nil => rfl
  | cons r rs ih =>
    have hr : r.toNat ≤ 0x7F := h r (List.mem_cons_self _ _)
    simp only [titleRunes, List.map_cons]
    rw [ih r fun x hx => h x (List.mem_cons_of_mem _ hx)]
    split
    · rw [asciiLower_ToTitle env r hr]
    · rfl

theorem asciiLower_upper_nul_facts (n : Nat) (h1 : 65 ≤ n) (h2 : n ≤ 90) :
    Char.ofNat n ≠ nul ∧ asciiLower (Char.ofNat n) ≠ nul := by
  interval_cases n <;> decide

theorem asciiLower_eq_nul (c : Char) : asciiLower c = nul ↔ c = nul := by
  by_cases h : 65 ≤ c.toNat ∧ c.toNat ≤ 90
  · have := char_of_toNat_range c 65 90 h
      (fun x => x ≠ nul ∧ asciiLower x ≠ nul) asciiLower_upper_nul_facts
    exact ⟨fun e => absurd e this.2, fun e => absurd e this.1⟩
  · simp only [asciiLower, h, if_false]

/-- Reading up to the first NUL and ASCII lower-casing can be done in either
order. -/
theorem cText_map_asciiLower (l : List Char) :
    (cText l).map asciiLower = cText (l.map asciiLower) := by
  induction l with
  | nil => rfl
  | cons c l ih =>
    unfold cText at ih ⊢
    by_cases hc : c = nul
    · subst hc
      have hl : asciiLower nul = nul := by decide
      simp only [List.map_cons, List.takeWhile_cons, hl, ne_eq, not_true_eq_false,
        decide_False, Bool.false_eq_true, if_false, List.map_nil]
    · have hl : ¬ asciiLower c = nul := fun e => hc ((asciiLower_eq_nul c).1 e)
      simp only [List.map_cons, List.takeWhile_cons, hc, hl, ne_eq, not_false_eq_true,
        decide_True, if_true, List.cons.injEq, true_and]
      exact ih

theorem utf8Size_ToTitle_lower (n : Nat) (h1 : 97 ≤ n) (h2 : n ≤ 122) :
    (Char.ofNat ((Char.ofNat n).toNat - 32)).utf8Size = (Char.ofNat n).utf8Size := by
  interval_cases n <;> decide

/-- Title case of an ASCII character takes as many bytes as the character. -/
theorem utf8Size_ToTitle (env : Env) (c : Char) (h : c.toNat ≤ 0x7F) :
    (ToTitle env c).utf8Size = c.utf8Size := by
  simp only [ToTitle, h, if_true]
  by_cases hl : 97 ≤ c.toNat ∧ c.toNat ≤ 122
  · rw [if_pos hl]
    exact char_of_toNat_range c 97 122 hl
      (fun x => (Char.ofNat (x.toNat - 32)).utf8Size = x.utf8Size) utf8Size_ToTitle_lower
  · rw [if_neg hl]

theorem byteLength_titleRunes (env : Env) (prev : Char) (rs : List Char)
    (h : ∀ r ∈ rs, r.toNat ≤ 0x7F) :
    byteLength (titleRunes env prev rs) = byteLength rs := by
  induction rs generalizing prev with
  | nil => rfl
  | cons r rs ih =>
    have hr : r.toNat ≤ 0x7F := h r (List.mem_cons_self _ _)
    simp only [titleRunes, byteLength_cons]
    rw [ih r fun x hx => h x (List.mem_cons_of_mem _ hx)]
    split
    · rw [utf8Size_ToTitle env r hr]
    · rfl

theorem likeTooLong_Title (env : Env) (v : String) (h : ∀ r ∈ v.data, r.toNat ≤ 0x7F) :
    likeTooLong (Title env v) = likeTooLong v := by
  simp only [likeTooLong, byteLength_pattern, Title, byteLength_titleRunes env ' ' v.data h]

/-- For an ASCII parameter the LIKE condition is the same with the title-cased
parameter and with the parameter itself. -/
theorem likeContains_Title (env : Env) (column v : String) (h : ∀ r ∈ v.data, r.toNat ≤ 0x7F) :
    likeContains column (Title env v) = likeContains column v := by
  have hp : ('%' :: ((Title env v).data ++ ['%'])).map asciiLower =
      ('%' :: (v.data ++ ['%'])).map asciiLower := by
    simp only [List.map_cons, List.map_append, Title, titleRunes_map_asciiLower env ' ' v.data h]
  unfold likeContains
  rw [← likeMatch_map_asciiLower, cText_map_asciiLower, hp, ← cText_map_asciiLower,
    likeMatch_map_asciiLower]

theorem filter_likeContains_Title (env : Env) (t : List Firearm) (col : Firearm → String)
    (v : String) (h : ∀ r ∈ v.data, r.toNat ≤ 0x7F) :
    (t.filter fun f => likeContains (col f) (Title env v)) =
      t.filter fun f => likeContains (col f) v := by
  have hfun : (fun f : Firearm => likeContains (col f) (Title env v)) =
      fun f => likeContains (col f) v := funext fun f => likeContains_Title env (col f) v h
  rw [hfun]

/-- For an ASCII parameter a LIKE query has the same answer, rows or error, with
the title-cased parameter and with the parameter itself. -/
theorem likeQuery_Title (env : Env) (t : List Firearm) (col : Firearm → String)
    (v : String) (h : ∀ r ∈ v.data, r.toNat ≤ 0x7F) :
    likeQuery t col (Title env v) = likeQuery t col v := by
  simp only [likeQuery, likeTooLong_Title env v h, filter_likeContains_Title env t col v h]

/-- C14: for an ASCII parameter `v` and every table, the name, type and country
queries match the same records, in the same order, with the title-cased `v` as
with `v` itself, and the response of each of the three handlers is the response
of the same handler without the title-casing. -/
theorem title_casing_changes_nothing (env : Env) (t : List Firearm) (v : String)
    (h : ∀ r ∈ v.data, r.toNat ≤ 0x7F) :
    sqlite env t (.nameLike (Title env v)) = sqlite env t (.nameLike v) ∧
    sqlite env t (.typeLike (Title env v)) = sqlite env t (.typeLike v) ∧
    sqlite env t (.countryLike (Title env v)) = sqlite env t (.countryLike v) ∧
    (GetFirearmsByName env (sqlite env t) v).response =
      (GetFirearmsByNameUntitled (sqlite env t) v).response ∧
    (GetFirearmsByType env (sqlite env t) v).response =
      (GetFirearmsByTypeUntitled (sqlite env t) v).response ∧
    (GetFirearmsByCountry env (sqlite env t) v).response =
      (GetFirearmsByCountryUntitled (sqlite env t) v).response := by
  have hn : sqlite env t (.nameLike (Title env v)) = sqlite env t (.nameLike v) := by
    simp only [sqlite, likeQuery_Title env t Firearm.Name v h]
  have ht : sqlite env t (.typeLike (Title env v)) = sqlite env t (.typeLike v) := by
    simp only [sqlite, likeQuery_Title env t Firearm.Type_ v h]
  have hc : sqlite env t (.countryLike (Title env v)) = sqlite env t (.countryLike v) := by
    simp only [sqlite, likeQuery_Title env t Firearm.CountryOfOrigin v h]
  refine ⟨hn, ht, hc, ?_, ?_, ?_⟩
  · unfold GetFirearmsByName GetFirearmsByNameUntitled
    split
    · rfl
    · simp only [hn]
  · unfold GetFirearmsByType GetFirearmsByTypeUntitled
    split
    · rfl
    · simp only [ht]
  · unfold GetFirearmsByCountry GetFirearmsByCountryUntitled
    split
    · rfl
    · simp only [hc]

/-- C14 on the sample table with the parameter "p2": both spellings of the
parameter reach the record named "P220". -/
theorem title_casing_changes_nothing_witness :
    (∀ r ∈ "p2".data, r.toNat ≤ 0x7F) ∧
    sqlite Env.ascii sampleTable (.nameLike (Title Env.ascii "p2")) =
      sqlite Env.ascii sampleTable (.nameLike "p2") ∧
    (GetFirearmsByName Env.ascii (sqlite Env.ascii sampleTable) "p2").response.records.map
      Firearm.Name = ["P220"] :=
  ⟨by decide, (title_casing_changes_nothing Env.ascii sampleTable "p2" (by decide)).1,
   by decide⟩

end Gunapi
